import Mathlib

/-!
Verification of the physics offload bridge of `bevy_graduation_project`.

The development shallowly embeds the request/response protocol, the backend
handle registry and per-request processing (`src/bevy/physics_server/src/main.rs`,
mirrored verbatim by the worker thread in `src/bevy/physics/src/plugin.rs`),
the frame-side writeback systems (`src/bevy/physics_client/src/systems.rs`,
`src/bevy/physics/src/systems.rs`, `src/client/src/systems.rs`), the batching
frame layer (`src/client/src/systems.rs`), the wire pipeline of the compressed
transport (`src/client/src/client.rs`), the CLI startup logic and the
simulated-latency stage of the backend (`src/bevy/physics_server/src/main.rs`).

Numeric leaf values that the bridge only moves around (f32 fields of poses,
velocities and material parameters) are represented by their 32-bit patterns
(`Fin (2 ^ 32)`): the bridge itself never computes with them, it only stores,
compares and serializes them, which is exactly what bit patterns support.
The rapier integrator, which the spec designates an external collaborator,
is abstracted as an arbitrary per-body update function.
-/

namespace Bridge

/-- Bit pattern of an `f32` value (IEEE 754 single precision). -/
abbrev F32 := Fin (2 ^ 32)

/-- A 64-bit value: entity ids (`u64` entity bits) and other `u64` fields. -/
abbrev U64 := Fin (2 ^ 64)

/-- Three-component vector of `f32` bit patterns (`Vect` / `Vec3`). -/
structure Vect where
  x : F32
  y : F32
  z : F32
deriving DecidableEq

/-- Quaternion of `f32` bit patterns (`Quat` / `UnitQuaternion`). -/
structure Quat4 where
  qx : F32
  qy : F32
  qz : F32
  qw : F32
deriving DecidableEq

/-- Bit pattern of `0.0f32`. -/
def f32Zero : F32 := ⟨0, by norm_num⟩

/-- Bit pattern of `1.0f32` (`0x3F800000`). -/
def f32One : F32 := ⟨0x3F800000, by norm_num⟩

/-- The zero vector (all components `0.0f32`). -/
def Vect.zero : Vect := ⟨f32Zero, f32Zero, f32Zero⟩

/-- The identity quaternion (`x = y = z = 0.0`, `w = 1.0`). -/
def Quat4.identity : Quat4 := ⟨f32Zero, f32Zero, f32Zero, f32One⟩

/-- An `Isometry<Real>`: a translation and a rotation, as serialized on the wire. -/
structure Iso where
  translation : Vect
  rotation : Quat4
deriving DecidableEq

/-- The identity isometry, `Isometry::default()` / `Transform::default()` mapped
through `transform_to_iso` (a zero translation divided by any physics scale is
still zero, and the rotation is passed through unchanged). -/
def Iso.identity : Iso := ⟨Vect.zero, Quat4.identity⟩

/-- The `RigidBody` component enum of bevy_rapier (`Dynamic`, `Fixed`,
`KinematicPositionBased`, `KinematicVelocityBased`). -/
inductive RigidBody where
  | Dynamic
  | Fixed
  | KinematicPositionBased
  | KinematicVelocityBased
deriving DecidableEq

/-- The `MassProperties` struct of bevy_rapier carried by descriptors. -/
structure MassProperties where
  local_center_of_mass : Vect
  mass : F32
  principal_inertia_local_frame : Quat4
  principal_inertia : Vect
deriving DecidableEq

/-- The `AdditionalMassProperties` enum of bevy_rapier: an extra mass, or a
full mass-properties override. -/
inductive AdditionalMassProperties where
  | Mass (mass : F32)
  | MassProperties (mprops : MassProperties)
deriving DecidableEq

/-- Collider geometry. Rapier's `SharedShape` menagerie is an external
collaborator (the spec treats geometry as opaque); two representative
constructors keep the type concrete and serializable. -/
inductive Shape where
  | Ball (radius : F32)
  | Cuboid (hx : F32) (hy : F32) (hz : F32)
deriving DecidableEq

/-- The `CoefficientCombineRule` enum of rapier. -/
inductive CoefficientCombineRule where
  | Average
  | Min
  | Multiply
  | Max
deriving DecidableEq

/-- The `Friction` component: coefficient plus combine rule. -/
structure Friction where
  coefficient : F32
  combine_rule : CoefficientCombineRule
deriving DecidableEq

/-- The `Restitution` component: coefficient plus combine rule. -/
structure Restitution where
  coefficient : F32
  combine_rule : CoefficientCombineRule
deriving DecidableEq

/-- The `ColliderMassProperties` enum of bevy_rapier. -/
inductive ColliderMassProperties where
  | Density (density : F32)
  | Mass (mass : F32)
  | MassProperties (mprops : MassProperties)
deriving DecidableEq

/-- A `CreatedBody` descriptor (`src/shared/src/lib.rs`,
`src/bevy/physics_shared/src/lib.rs`): entity bits, body kind, optional
initial pose, optional mass-properties override. -/
structure CreatedBody where
  id : U64
  body : RigidBody
  transform : Option Iso
  additional_mass_properties : Option AdditionalMassProperties
deriving DecidableEq

/-- A `CreatedCollider` descriptor (`src/shared/src/lib.rs`,
`src/bevy/physics_shared/src/lib.rs`). -/
structure CreatedCollider where
  id : U64
  shape : Shape
  transform : Option Iso
  sensor : Option Bool
  mass_properties : Option ColliderMassProperties
  friction : Option Friction
  restitution : Option Restitution
deriving DecidableEq

/-- A rigid body stored in the backend arena, as built by `create_bodies`:
`RigidBodyBuilder::new(kind)` positioned at the descriptor pose (identity when
absent), with the descriptor's mass override and `user_data = id`, and zero
initial velocities. -/
structure RigidBodyData where
  btype : RigidBody
  position : Iso
  addMprops : Option AdditionalMassProperties
  userData : U64
  linvel : Vect
  angvel : Vect
deriving DecidableEq

/-- A collider stored in the backend arena, as built by `create_colliders`.
`parent` records attachment produced by `insert_with_parent`. -/
structure ColliderData where
  shape : Shape
  mass_properties : Option ColliderMassProperties
  friction : Option Friction
  restitution : Option Restitution
  userData : U64
  parent : Option Nat
  position : Iso
deriving DecidableEq

/-- First-match lookup in an association list; models both `HashMap::get`
(through `insertAssoc` placing the latest write first) and arena indexing
(arena keys are unique by construction). -/
def lookupAssoc {α β : Type} [DecidableEq α] : List (α × β) → α → Option β
  | [], _ => none
  | (k, v) :: rest, key => if key = k then some v else lookupAssoc rest key

/-- Model of `HashMap::insert`: the new binding shadows any previous one under
`lookupAssoc` (first match wins). -/
def insertAssoc {α β : Type} [DecidableEq α] (m : List (α × β)) (k : α) (v : β) :
    List (α × β) :=
  (k, v) :: m

/-- The backend `RapierContext` state touched by the bridge: the two arenas
(with a fresh-handle counter each, faithful to rapier's arena because nothing
in scope ever removes), and the entity-to-handle registries. -/
structure RapierContext where
  bodies : List (Nat × RigidBodyData)
  nextBodyHandle : Nat
  colliders : List (Nat × ColliderData)
  nextColliderHandle : Nat
  entity2body : List (U64 × Nat)
  entity2collider : List (U64 × Nat)
deriving DecidableEq

/-- The empty backend context (`RapierContext::default()`). -/
def RapierContext.empty : RapierContext :=
  { bodies := []
    nextBodyHandle := 0
    colliders := []
    nextColliderHandle := 0
    entity2body := []
    entity2collider := [] }

/-- Arena well-formedness: every stored handle was produced by a past
fresh-counter value, so it is strictly below the current counter. This is an
invariant of every reachable context (fresh handles come from the counters). -/
def ctxWF (ctx : RapierContext) : Prop :=
  (∀ p ∈ ctx.bodies, p.1 < ctx.nextBodyHandle) ∧
    (∀ p ∈ ctx.colliders, p.1 < ctx.nextColliderHandle)

instance (ctx : RapierContext) : Decidable (ctxWF ctx) := by
  unfold ctxWF; infer_instance

/-- The rigid body built for one descriptor by the loop body of
`create_bodies`: default builder, then `.position(transform)` when the
descriptor carries one, the optional mass override, and `user_data = id`. -/
def buildRigidBody (b : CreatedBody) : RigidBodyData :=
  { btype := b.body
    position := b.transform.getD Iso.identity
    addMprops := b.additional_mass_properties
    userData := b.id
    linvel := Vect.zero
    angvel := Vect.zero }

/-- The backend `create_bodies` loop (`src/bevy/physics_server/src/main.rs`,
lines 212-242; the `CreateBodies` arm of `src/bevy/physics/src/plugin.rs` is
identical): for each descriptor in order, insert the built body into the arena
(receiving the next fresh handle), record `entity2body[id] = handle`, and push
`(id, handle)` onto the reply list. -/
def create_bodies : List CreatedBody → RapierContext → RapierContext × List (U64 × Nat)
  | [], ctx => (ctx, [])
  | body :: rest, ctx =>
    let handle := ctx.nextBodyHandle
    let ctx1 : RapierContext :=
      { ctx with
        bodies := ctx.bodies ++ [(handle, buildRigidBody body)]
        nextBodyHandle := handle + 1
        entity2body := insertAssoc ctx.entity2body body.id handle }
    let out := create_bodies rest ctx1
    (out.1, (body.id, handle) :: out.2)

theorem lookupAssoc_append_of_left {α β : Type} [DecidableEq α]
    {l1 l2 : List (α × β)} {k : α} {v : β} (h : lookupAssoc l1 k = some v) :
    lookupAssoc (l1 ++ l2) k = some v := by
  induction l1 with
  | nil => simp [lookupAssoc] at h
  | cons p rest ih =>
    obtain ⟨a, b⟩ := p
    by_cases hk : k = a
    · simp_all [lookupAssoc]
    · simp_all [lookupAssoc]

theorem lookupAssoc_append_of_none {α β : Type} [DecidableEq α]
    {l1 : List (α × β)} (l2 : List (α × β)) {k : α}
    (h : lookupAssoc l1 k = none) :
    lookupAssoc (l1 ++ l2) k = lookupAssoc l2 k := by
  induction l1 with
  | nil => simp [lookupAssoc]
  | cons p rest ih =>
    obtain ⟨a, b⟩ := p
    by_cases hk : k = a
    · simp_all [lookupAssoc]
    · simp_all [lookupAssoc]

theorem lookupAssoc_none_of_keys_lt {β : Type} {l : List (Nat × β)} {n : Nat}
    (h : ∀ p ∈ l, p.1 < n) : lookupAssoc l n = none := by
  induction l with
  | nil => rfl
  | cons p rest ih =>
    obtain ⟨a, b⟩ := p
    have ha : a < n := h (a, b) (List.mem_cons_self _ _)
    have : ¬(n = a) := by omega
    simp only [lookupAssoc, if_neg this]
    exact ih fun q hq => h q (List.mem_cons_of_mem _ hq)

/-- Every arena entry added by `create_bodies` carries a handle at or above the
incoming fresh counter, and the final arena extends the incoming one. -/
theorem create_bodies_arena_extend (bodies : List CreatedBody) (ctx : RapierContext) :
    ∃ tail, (create_bodies bodies ctx).1.bodies = ctx.bodies ++ tail ∧
      ∀ p ∈ tail, ctx.nextBodyHandle ≤ p.1 := by
  induction bodies generalizing ctx with
  | nil => exact ⟨[], by simp [create_bodies]⟩
  | cons body rest ih =>
    obtain ⟨tail, htail, hge⟩ := ih
      { ctx with
        bodies := ctx.bodies ++ [(ctx.nextBodyHandle, buildRigidBody body)]
        nextBodyHandle := ctx.nextBodyHandle + 1
        entity2body := insertAssoc ctx.entity2body body.id ctx.nextBodyHandle }
    refine ⟨(ctx.nextBodyHandle, buildRigidBody body) :: tail, ?_, ?_⟩
    · simpa [create_bodies] using htail
    · intro p hp
      rcases List.mem_cons.mp hp with h | h
      · subst h; exact Nat.le_refl _
      · exact Nat.le_of_succ_le (hge p h)

/-- Core induction for C1: the reply of `create_bodies` pairs the i-th
descriptor's id with the i-th fresh handle, and that handle resolves in the
final arena to the body built from that very descriptor. -/
theorem create_bodies_get (bodies : List CreatedBody) :
    ∀ (ctx : RapierContext) (i : Nat) (b : CreatedBody),
      bodies.get? i = some b →
      (create_bodies bodies ctx).2.get? i = some (b.id, ctx.nextBodyHandle + i) ∧
        ((∀ p ∈ ctx.bodies, p.1 < ctx.nextBodyHandle) →
          lookupAssoc (create_bodies bodies ctx).1.bodies (ctx.nextBodyHandle + i) =
            some (buildRigidBody b)) := by
  induction bodies with
  | nil => intro ctx i b h; simp at h
  | cons body rest ih =>
    intro ctx i b h
    set ctx1 : RapierContext :=
      { ctx with
        bodies := ctx.bodies ++ [(ctx.nextBodyHandle, buildRigidBody body)]
        nextBodyHandle := ctx.nextBodyHandle + 1
        entity2body := insertAssoc ctx.entity2body body.id ctx.nextBodyHandle }
      with hctx1
    match i with
    | 0 =>
      have hb : body = b := by simpa using h
      constructor
      · simp [create_bodies, hb]
      · intro hwf
        have hnone : lookupAssoc ctx.bodies (ctx.nextBodyHandle + 0) = none := by
          apply lookupAssoc_none_of_keys_lt
          intro p hp; have := hwf p hp; omega
        obtain ⟨tail, htail, hge⟩ := create_bodies_arena_extend rest ctx1
        have harena : (create_bodies (body :: rest) ctx).1.bodies =
            ctx.bodies ++ ((ctx.nextBodyHandle, buildRigidBody body) :: tail) := by
          simp only [create_bodies]
          rw [htail]; simp [hctx1]
        rw [harena, lookupAssoc_append_of_none _ hnone]
        simp [lookupAssoc, hb]
    | Nat.succ j =>
      have hrest : rest.get? j = some b := by simpa using h
      have hmain := ih ctx1 j b hrest
      have hnext : ctx1.nextBodyHandle = ctx.nextBodyHandle + 1 := rfl
      constructor
      · have := hmain.1
        simp only [create_bodies]
        simpa [hnext, Nat.add_assoc, Nat.add_comm 1 j] using this
      · intro hwf
        have hwf1 : ∀ p ∈ ctx1.bodies, p.1 < ctx1.nextBodyHandle := by
          intro p hp
          simp only [hctx1, List.mem_append, List.mem_singleton] at hp
          rcases hp with hp | hp
          · have := hwf p hp; simp [hctx1]; omega
          · subst hp; simp [hctx1]
        have := hmain.2 hwf1
        simp only [create_bodies]
        simpa [hnext, Nat.add_assoc, Nat.add_comm 1 j] using this

/-- Length of the `create_bodies` reply equals the number of descriptors. -/
theorem create_bodies_length (bodies : List CreatedBody) (ctx : RapierContext) :
    (create_bodies bodies ctx).2.length = bodies.length := by
  induction bodies generalizing ctx with
  | nil => rfl
  | cons body rest ih => simp [create_bodies, ih]

/-- C1. A `CreateBodies` request with N descriptors is answered by
`RigidBodyHandles` with exactly N pairs in input order: the i-th pair carries
the i-th descriptor's entity id together with the handle freshly created for
that descriptor (the handle resolves in the backend arena to the body built
from that descriptor, and did not exist before the call). -/
theorem createBodies_identity (bodies : List CreatedBody) (ctx : RapierContext)
    (hwf : ctxWF ctx) :
    (create_bodies bodies ctx).2.length = bodies.length ∧
      ∀ i b, bodies.get? i = some b →
        (create_bodies bodies ctx).2.get? i = some (b.id, ctx.nextBodyHandle + i) ∧
          lookupAssoc (create_bodies bodies ctx).1.bodies (ctx.nextBodyHandle + i) =
            some (buildRigidBody b) ∧
          lookupAssoc ctx.bodies (ctx.nextBodyHandle + i) = none := by
  refine ⟨create_bodies_length bodies ctx, ?_⟩
  intro i b h
  have hmain := create_bodies_get bodies ctx i b h
  refine ⟨hmain.1, hmain.2 hwf.1, ?_⟩
  apply lookupAssoc_none_of_keys_lt
  intro p hp; have := hwf.1 p hp; omega

/-- Concrete instantiation of C1: two descriptors on the empty backend. -/
theorem createBodies_identity_witness :
    ctxWF RapierContext.empty ∧
      ((create_bodies
            [⟨⟨5, by norm_num⟩, RigidBody.Dynamic, none, none⟩,
              ⟨⟨9, by norm_num⟩, RigidBody.Fixed, some Iso.identity, none⟩]
            RapierContext.empty).2.length = 2 ∧
        ∀ i b,
          ([⟨⟨5, by norm_num⟩, RigidBody.Dynamic, none, none⟩,
              ⟨⟨9, by norm_num⟩, RigidBody.Fixed, some Iso.identity, none⟩] :
            List CreatedBody).get? i = some b →
          (create_bodies
              [⟨⟨5, by norm_num⟩, RigidBody.Dynamic, none, none⟩,
                ⟨⟨9, by norm_num⟩, RigidBody.Fixed, some Iso.identity, none⟩]
              RapierContext.empty).2.get? i =
              some (b.id, RapierContext.empty.nextBodyHandle + i) ∧
            lookupAssoc
                (create_bodies
                    [⟨⟨5, by norm_num⟩, RigidBody.Dynamic, none, none⟩,
                      ⟨⟨9, by norm_num⟩, RigidBody.Fixed, some Iso.identity, none⟩]
                    RapierContext.empty).1.bodies
                (RapierContext.empty.nextBodyHandle + i) =
              some (buildRigidBody b) ∧
            lookupAssoc RapierContext.empty.bodies
                (RapierContext.empty.nextBodyHandle + i) = none) :=
  ⟨by decide,
    createBodies_identity
      [⟨⟨5, by norm_num⟩, RigidBody.Dynamic, none, none⟩,
        ⟨⟨9, by norm_num⟩, RigidBody.Fixed, some Iso.identity, none⟩]
      RapierContext.empty (by decide)⟩

/-- The collider built for one descriptor by the loop body of
`create_colliders` (`src/bevy/physics_server/src/main.rs`, lines 244-299; the
`CreateColliders` arm of `src/bevy/physics/src/plugin.rs` is identical):
shape, optional material properties and `user_data = id` from the descriptor;
then, if the entity id resolves in the body registry, the collider is attached
to that body (`insert_with_parent`) at the child transform
`Transform::default()`, whose isometry is the identity; otherwise it is
free-standing at the descriptor pose, `unwrap_or_default()` giving the
identity when the descriptor carries none. -/
def builtCollider (registry : List (U64 × Nat)) (c : CreatedCollider) : ColliderData :=
  { shape := c.shape
    mass_properties := c.mass_properties
    friction := c.friction
    restitution := c.restitution
    userData := c.id
    parent := lookupAssoc registry c.id
    position :=
      match lookupAssoc registry c.id with
      | some _ => Iso.identity
      | none => c.transform.getD Iso.identity }

/-- The backend `create_colliders` loop: for each descriptor in order, build
the collider against the current body registry, insert it into the collider
arena (receiving the next fresh handle), record
`entity2collider[id] = handle`, and push `(id, handle)` onto the reply. -/
def create_colliders : List CreatedCollider → RapierContext → RapierContext × List (U64 × Nat)
  | [], ctx => (ctx, [])
  | collider :: rest, ctx =>
    let handle := ctx.nextColliderHandle
    let ctx1 : RapierContext :=
      { ctx with
        colliders := ctx.colliders ++ [(handle, builtCollider ctx.entity2body collider)]
        nextColliderHandle := handle + 1
        entity2collider := insertAssoc ctx.entity2collider collider.id handle }
    let out := create_colliders rest ctx1
    (out.1, (collider.id, handle) :: out.2)

/-- Creating colliders never touches the body registry. -/
theorem create_colliders_entity2body (cs : List CreatedCollider) (ctx : RapierContext) :
    (create_colliders cs ctx).1.entity2body = ctx.entity2body := by
  induction cs generalizing ctx with
  | nil => rfl
  | cons c rest ih => simpa [create_colliders] using ih _

/-- The collider arena only grows, and every new handle is at or above the
incoming fresh counter. -/
theorem create_colliders_arena_extend (cs : List CreatedCollider) (ctx : RapierContext) :
    ∃ tail, (create_colliders cs ctx).1.colliders = ctx.colliders ++ tail ∧
      ∀ p ∈ tail, ctx.nextColliderHandle ≤ p.1 := by
  induction cs generalizing ctx with
  | nil => exact ⟨[], by simp [create_colliders]⟩
  | cons c rest ih =>
    obtain ⟨tail, htail, hge⟩ := ih
      { ctx with
        colliders := ctx.colliders ++ [(ctx.nextColliderHandle, builtCollider ctx.entity2body c)]
        nextColliderHandle := ctx.nextColliderHandle + 1
        entity2collider := insertAssoc ctx.entity2collider c.id ctx.nextColliderHandle }
    refine ⟨(ctx.nextColliderHandle, builtCollider ctx.entity2body c) :: tail, ?_, ?_⟩
    · simpa [create_colliders] using htail
    · intro p hp
      rcases List.mem_cons.mp hp with h | h
      · subst h; exact Nat.le_refl _
      · exact Nat.le_of_succ_le (hge p h)

/-- Core induction for C2: the reply pairs the i-th descriptor's id with the
i-th fresh collider handle, which resolves in the final arena to the collider
built from that descriptor against the incoming body registry. -/
theorem create_colliders_get (cs : List CreatedCollider) :
    ∀ (ctx : RapierContext) (i : Nat) (c : CreatedCollider),
      cs.get? i = some c →
      (create_colliders cs ctx).2.get? i = some (c.id, ctx.nextColliderHandle + i) ∧
        ((∀ p ∈ ctx.colliders, p.1 < ctx.nextColliderHandle) →
          lookupAssoc (create_colliders cs ctx).1.colliders (ctx.nextColliderHandle + i) =
            some (builtCollider ctx.entity2body c)) := by
  induction cs with
  | nil => intro ctx i c h; simp at h
  | cons collider rest ih =>
    intro ctx i c h
    set ctx1 : RapierContext :=
      { ctx with
        colliders :=
          ctx.colliders ++ [(ctx.nextColliderHandle, builtCollider ctx.entity2body collider)]
        nextColliderHandle := ctx.nextColliderHandle + 1
        entity2collider := insertAssoc ctx.entity2collider collider.id ctx.nextColliderHandle }
      with hctx1
    match i with
    | 0 =>
      have hc : collider = c := by simpa using h
      constructor
      · simp [create_colliders, hc]
      · intro hwf
        have hnone : lookupAssoc ctx.colliders (ctx.nextColliderHandle + 0) = none := by
          apply lookupAssoc_none_of_keys_lt
          intro p hp; have := hwf p hp; omega
        obtain ⟨tail, htail, hge⟩ := create_colliders_arena_extend rest ctx1
        have harena : (create_colliders (collider :: rest) ctx).1.colliders =
            ctx.colliders ++
              ((ctx.nextColliderHandle, builtCollider ctx.entity2body collider) :: tail) := by
          simp only [create_colliders]
          rw [htail]; simp [hctx1]
        rw [harena, lookupAssoc_append_of_none _ hnone]
        simp [lookupAssoc, hc]
    | Nat.succ j =>
      have hrest : rest.get? j = some c := by simpa using h
      have hmain := ih ctx1 j c hrest
      have hnext : ctx1.nextColliderHandle = ctx.nextColliderHandle + 1 := rfl
      have hreg : ctx1.entity2body = ctx.entity2body := rfl
      constructor
      · have := hmain.1
        simp only [create_colliders]
        simpa [hnext, Nat.add_assoc, Nat.add_comm 1 j] using this
      · intro hwf
        have hwf1 : ∀ p ∈ ctx1.colliders, p.1 < ctx1.nextColliderHandle := by
          intro p hp
          simp only [hctx1, List.mem_append, List.mem_singleton] at hp
          rcases hp with hp | hp
          · have := hwf p hp; simp [hctx1]; omega
          · subst hp; simp [hctx1]
        have := hmain.2 hwf1
        rw [hreg] at this
        simp only [create_colliders]
        simpa [hnext, Nat.add_assoc, Nat.add_comm 1 j] using this

/-- Length of the `create_colliders` reply equals the number of descriptors. -/
theorem create_colliders_length (cs : List CreatedCollider) (ctx : RapierContext) :
    (create_colliders cs ctx).2.length = cs.length := by
  induction cs generalizing ctx with
  | nil => rfl
  | cons c rest ih => simp [create_colliders, ih]

/-- C2. Each collider descriptor whose entity id has a registered body handle
when it is processed is attached as a child of that body at the identity child
pose; otherwise it is created free-standing at its own pose (identity when the
descriptor carries none); and the `(entity id, handle)` pair is appended to
the `ColliderHandles` reply in input order. The body registry consulted is
never modified by the request, so "when processed" and "at request start"
coincide. -/
theorem createColliders_parenting (cs : List CreatedCollider) (ctx : RapierContext)
    (hwf : ctxWF ctx) :
    (create_colliders cs ctx).2.length = cs.length ∧
      (create_colliders cs ctx).1.entity2body = ctx.entity2body ∧
      ∀ i c, cs.get? i = some c →
        (create_colliders cs ctx).2.get? i = some (c.id, ctx.nextColliderHandle + i) ∧
          ∃ cd, lookupAssoc (create_colliders cs ctx).1.colliders
              (ctx.nextColliderHandle + i) = some cd ∧
            cd.shape = c.shape ∧ cd.userData = c.id ∧
            (∀ bh, lookupAssoc ctx.entity2body c.id = some bh →
              cd.parent = some bh ∧ cd.position = Iso.identity) ∧
            (lookupAssoc ctx.entity2body c.id = none →
              cd.parent = none ∧ cd.position = c.transform.getD Iso.identity) := by
  refine ⟨create_colliders_length cs ctx, create_colliders_entity2body cs ctx, ?_⟩
  intro i c h
  have hmain := create_colliders_get cs ctx i c h
  refine ⟨hmain.1, builtCollider ctx.entity2body c, hmain.2 hwf.2, rfl, rfl, ?_, ?_⟩
  · intro bh hbh
    constructor
    · simp [builtCollider, hbh]
    · simp [builtCollider, hbh]
  · intro hnone
    constructor
    · simp [builtCollider, hnone]
    · simp [builtCollider, hnone]

/-- Concrete instantiation of C2: a backend that has body handle 0 registered
for entity 5, receiving one attached and one free-standing collider. -/
theorem createColliders_parenting_witness :
    ctxWF
        { bodies := [(0, buildRigidBody ⟨⟨5, by norm_num⟩, RigidBody.Dynamic, none, none⟩)]
          nextBodyHandle := 1
          colliders := []
          nextColliderHandle := 0
          entity2body := [(⟨5, by norm_num⟩, 0)]
          entity2collider := [] } ∧
      ((create_colliders
            [⟨⟨5, by norm_num⟩, Shape.Ball f32One, none, none, none, none, none⟩,
              ⟨⟨7, by norm_num⟩, Shape.Cuboid f32One f32One f32One, none, none, none, none, none⟩]
            { bodies := [(0, buildRigidBody ⟨⟨5, by norm_num⟩, RigidBody.Dynamic, none, none⟩)]
              nextBodyHandle := 1
              colliders := []
              nextColliderHandle := 0
              entity2body := [(⟨5, by norm_num⟩, 0)]
              entity2collider := [] }).2.length = 2 ∧
        (create_colliders
            [⟨⟨5, by norm_num⟩, Shape.Ball f32One, none, none, none, none, none⟩,
              ⟨⟨7, by norm_num⟩, Shape.Cuboid f32One f32One f32One, none, none, none, none, none⟩]
            { bodies := [(0, buildRigidBody ⟨⟨5, by norm_num⟩, RigidBody.Dynamic, none, none⟩)]
              nextBodyHandle := 1
              colliders := []
              nextColliderHandle := 0
              entity2body := [(⟨5, by norm_num⟩, 0)]
              entity2collider := [] }).1.entity2body = [(⟨5, by norm_num⟩, 0)] ∧
        ∀ i c,
          ([⟨⟨5, by norm_num⟩, Shape.Ball f32One, none, none, none, none, none⟩,
              ⟨⟨7, by norm_num⟩, Shape.Cuboid f32One f32One f32One, none, none, none, none,
                none⟩] :
            List CreatedCollider).get? i = some c →
          (create_colliders
              [⟨⟨5, by norm_num⟩, Shape.Ball f32One, none, none, none, none, none⟩,
                ⟨⟨7, by norm_num⟩, Shape.Cuboid f32One f32One f32One, none, none, none, none,
                  none⟩]
              { bodies := [(0, buildRigidBody ⟨⟨5, by norm_num⟩, RigidBody.Dynamic, none, none⟩)]
                nextBodyHandle := 1
                colliders := []
                nextColliderHandle := 0
                entity2body := [(⟨5, by norm_num⟩, 0)]
                entity2collider := [] }).2.get? i = some (c.id, 0 + i) ∧
            ∃ cd, lookupAssoc
                (create_colliders
                    [⟨⟨5, by norm_num⟩, Shape.Ball f32One, none, none, none, none, none⟩,
                      ⟨⟨7, by norm_num⟩, Shape.Cuboid f32One f32One f32One, none, none, none,
                        none, none⟩]
                    { bodies :=
                        [(0, buildRigidBody ⟨⟨5, by norm_num⟩, RigidBody.Dynamic, none, none⟩)]
                      nextBodyHandle := 1
                      colliders := []
                      nextColliderHandle := 0
                      entity2body := [(⟨5, by norm_num⟩, 0)]
                      entity2collider := [] }).1.colliders (0 + i) = some cd ∧
              cd.shape = c.shape ∧ cd.userData = c.id ∧
              (∀ bh, lookupAssoc [(⟨5, by norm_num⟩, 0)] c.id = some bh →
                cd.parent = some bh ∧ cd.position = Iso.identity) ∧
              (lookupAssoc [(⟨5, by norm_num⟩, 0)] c.id = none →
                cd.parent = none ∧ cd.position = c.transform.getD Iso.identity)) :=
  ⟨by decide,
    createColliders_parenting
      [⟨⟨5, by norm_num⟩, Shape.Ball f32One, none, none, none, none, none⟩,
        ⟨⟨7, by norm_num⟩, Shape.Cuboid f32One f32One f32One, none, none, none, none, none⟩]
      { bodies := [(0, buildRigidBody ⟨⟨5, by norm_num⟩, RigidBody.Dynamic, none, none⟩)]
        nextBodyHandle := 1
        colliders := []
        nextColliderHandle := 0
        entity2body := [(⟨5, by norm_num⟩, 0)]
        entity2collider := [] } (by decide)⟩

/-- A `Transform` component of the observed scene graph (bevy): translation,
rotation and scale. Only translation and rotation are ever written back. -/
structure Transform where
  translation : Vect
  rotation : Quat4
  scale : Vect
deriving DecidableEq

/-- A `Velocity` component: linear and angular velocity. -/
structure Velocity where
  linvel : Vect
  angvel : Vect
deriving DecidableEq

/-- The backend `simulate_step` (`src/bevy/physics_server/src/main.rs`, lines
301-334; the `SimulateStep` arm of `src/bevy/physics/src/plugin.rs` is
identical). `context.step_simulation` is the external rapier integrator: it
updates every body in place and neither creates nor destroys bodies, so it is
abstracted as an arbitrary per-body update `stepFn`. The readback conversion
(`iso_to_transform` and the velocity scaling, external float arithmetic) is
abstracted as `readback`. After the step, the loop over `context.bodies.iter()`
inserts one `(handle, (transform, velocity))` entry per live body. -/
def simulate_step (stepFn : RigidBodyData → RigidBodyData)
    (readback : RigidBodyData → Transform × Velocity) (ctx : RapierContext) :
    RapierContext × List (Nat × (Transform × Velocity)) :=
  let bodies1 := ctx.bodies.map fun p => (p.1, stepFn p.2)
  ({ ctx with bodies := bodies1 }, bodies1.map fun p => (p.1, readback p.2))

theorem lookupAssoc_map_value {α β γ : Type} [DecidableEq α]
    (g : β → γ) : ∀ (l : List (α × β)) (p : α × β), (l.map Prod.fst).Nodup →
      p ∈ l → lookupAssoc (l.map fun q => (q.1, g q.2)) p.1 = some (g p.2)
  | [], p, _, hp => by simp at hp
  | (a, b) :: rest, p, hnd, hp => by
    rcases List.mem_cons.mp hp with h | h
    · subst h
      simp [lookupAssoc]
    · have hne : p.1 ≠ a := by
        intro hEq
        have : a ∈ rest.map Prod.fst := hEq ▸ List.mem_map_of_mem Prod.fst h
        simp [List.nodup_cons] at hnd
        exact hnd.1 p.2 (by simpa [← hEq] using h)
      have hnd' : (rest.map Prod.fst).Nodup := by
        simp [List.nodup_cons] at hnd
        exact hnd.2
      simp only [List.map_cons, lookupAssoc, if_neg hne]
      exact lookupAssoc_map_value g rest p hnd' h

/-- C3. Every `SimulateStep` reply covers the whole arena: the result map has
an entry, keyed by backend handle, for every body alive after the step (with
that body's read-back pose and velocity), and conversely every entry of the
map belongs to a live body. Nothing restricts the loop to bodies touched this
step. -/
theorem simulateStep_covers (stepFn : RigidBodyData → RigidBodyData)
    (readback : RigidBodyData → Transform × Velocity) (ctx : RapierContext)
    (hnd : (ctx.bodies.map Prod.fst).Nodup) :
    (∀ p ∈ (simulate_step stepFn readback ctx).1.bodies,
        lookupAssoc (simulate_step stepFn readback ctx).2 p.1 = some (readback p.2)) ∧
      (∀ q ∈ (simulate_step stepFn readback ctx).2,
        q.1 ∈ (simulate_step stepFn readback ctx).1.bodies.map Prod.fst) ∧
      (simulate_step stepFn readback ctx).1.bodies.length = ctx.bodies.length := by
  refine ⟨?_, ?_, by simp [simulate_step]⟩
  · intro p hp
    have hnd1 : (((ctx.bodies.map fun q => (q.1, stepFn q.2)).map Prod.fst)).Nodup := by
      have : ((ctx.bodies.map fun q => (q.1, stepFn q.2)).map Prod.fst) =
          ctx.bodies.map Prod.fst := by
        simp [List.map_map, Function.comp]
      rw [this]; exact hnd
    exact lookupAssoc_map_value readback _ p hnd1 hp
  · intro q hq
    simp only [simulate_step, List.mem_map] at hq ⊢
    obtain ⟨p, hp, hpq⟩ := hq
    exact ⟨p, hp, by simp [← hpq]⟩

/-- Concrete instantiation of C3: two live bodies, an integrator that clears
velocities, a readback that reports the stored pose. -/
theorem simulateStep_covers_witness :
    ((([(0, buildRigidBody ⟨⟨5, by norm_num⟩, RigidBody.Dynamic, none, none⟩),
          (1, buildRigidBody ⟨⟨9, by norm_num⟩, RigidBody.Fixed, none, none⟩)] :
        List (Nat × RigidBodyData)).map Prod.fst).Nodup) ∧
      ((∀ p ∈ (simulate_step id
              (fun rb => (⟨rb.position.translation, rb.position.rotation, Vect.zero⟩,
                ⟨rb.linvel, rb.angvel⟩))
              { bodies :=
                  [(0, buildRigidBody ⟨⟨5, by norm_num⟩, RigidBody.Dynamic, none, none⟩),
                    (1, buildRigidBody ⟨⟨9, by norm_num⟩, RigidBody.Fixed, none, none⟩)]
                nextBodyHandle := 2
                colliders := []
                nextColliderHandle := 0
                entity2body := []
                entity2collider := [] }).1.bodies,
          lookupAssoc (simulate_step id
              (fun rb => (⟨rb.position.translation, rb.position.rotation, Vect.zero⟩,
                ⟨rb.linvel, rb.angvel⟩))
              { bodies :=
                  [(0, buildRigidBody ⟨⟨5, by norm_num⟩, RigidBody.Dynamic, none, none⟩),
                    (1, buildRigidBody ⟨⟨9, by norm_num⟩, RigidBody.Fixed, none, none⟩)]
                nextBodyHandle := 2
                colliders := []
                nextColliderHandle := 0
                entity2body := []
                entity2collider := [] }).2 p.1 =
            some ((fun rb => (⟨rb.position.translation, rb.position.rotation, Vect.zero⟩,
                ⟨rb.linvel, rb.angvel⟩)) p.2)) ∧
        (∀ q ∈ (simulate_step id
              (fun rb => (⟨rb.position.translation, rb.position.rotation, Vect.zero⟩,
                ⟨rb.linvel, rb.angvel⟩))
              { bodies :=
                  [(0, buildRigidBody ⟨⟨5, by norm_num⟩, RigidBody.Dynamic, none, none⟩),
                    (1, buildRigidBody ⟨⟨9, by norm_num⟩, RigidBody.Fixed, none, none⟩)]
                nextBodyHandle := 2
                colliders := []
                nextColliderHandle := 0
                entity2body := []
                entity2collider := [] }).2,
          q.1 ∈ (simulate_step id
              (fun rb => (⟨rb.position.translation, rb.position.rotation, Vect.zero⟩,
                ⟨rb.linvel, rb.angvel⟩))
              { bodies :=
                  [(0, buildRigidBody ⟨⟨5, by norm_num⟩, RigidBody.Dynamic, none, none⟩),
                    (1, buildRigidBody ⟨⟨9, by norm_num⟩, RigidBody.Fixed, none, none⟩)]
                nextBodyHandle := 2
                colliders := []
                nextColliderHandle := 0
                entity2body := []
                entity2collider := [] }).1.bodies.map Prod.fst) ∧
        (simulate_step id
            (fun rb => (⟨rb.position.translation, rb.position.rotation, Vect.zero⟩,
              ⟨rb.linvel, rb.angvel⟩))
            { bodies :=
                [(0, buildRigidBody ⟨⟨5, by norm_num⟩, RigidBody.Dynamic, none, none⟩),
                  (1, buildRigidBody ⟨⟨9, by norm_num⟩, RigidBody.Fixed, none, none⟩)]
              nextBodyHandle := 2
              colliders := []
              nextColliderHandle := 0
              entity2body := []
              entity2collider := [] }).1.bodies.length = 2) :=
  ⟨by decide,
    simulateStep_covers id
      (fun rb => (⟨rb.position.translation, rb.position.rotation, Vect.zero⟩,
        ⟨rb.linvel, rb.angvel⟩))
      { bodies :=
          [(0, buildRigidBody ⟨⟨5, by norm_num⟩, RigidBody.Dynamic, none, none⟩),
            (1, buildRigidBody ⟨⟨9, by norm_num⟩, RigidBody.Fixed, none, none⟩)]
        nextBodyHandle := 2
        colliders := []
        nextColliderHandle := 0
        entity2body := []
        entity2collider := [] } (by decide)⟩

/-- Whether an `f32` bit pattern encodes a NaN (exponent all ones, nonzero
mantissa). -/
def f32IsNaN (x : F32) : Bool :=
  decide ((x.val / 2 ^ 23) % 2 ^ 8 = 0xFF) && decide (x.val % 2 ^ 23 ≠ 0)

/-- Whether an `f32` bit pattern encodes a zero (`+0.0` or `-0.0`). -/
def f32IsZero (x : F32) : Bool :=
  decide (x.val = 0) || decide (x.val = 0x80000000)

/-- IEEE 754 `f32` equality (`==` in Rust) on bit patterns: NaN equals nothing,
the two zeros equal each other, all other values compare by representation. -/
def f32Eq (x y : F32) : Bool :=
  !(f32IsNaN x || f32IsNaN y) && (decide (x = y) || (f32IsZero x && f32IsZero y))

/-- Componentwise `f32` equality of vectors (`Vec3: PartialEq`). -/
def vectEq (u v : Vect) : Bool :=
  f32Eq u.x v.x && f32Eq u.y v.y && f32Eq u.z v.z

/-- Derived `PartialEq` of the `Velocity` component. -/
def velocityEq (u v : Velocity) : Bool :=
  vectEq u.linvel v.linvel && vectEq u.angvel v.angvel

/-- One row of the frame-side writeback query
(`Query<(RigidBodyWritebackComponents, &RapierRigidBodyHandle)>`): the
recorded backend handle, the optional `Transform` and `Velocity` components,
and their bevy change-detection flags for the current frame. A component write
through the `Mut` wrapper sets the flag. -/
structure WritebackEntity where
  handle : Nat
  transform : Option Transform
  velocity : Option Velocity
  transformChanged : Bool
  velocityChanged : Bool
deriving DecidableEq

/-- Writeback of one tracked entity (`src/bevy/physics_client/src/systems.rs`
lines 120-159, `src/bevy/physics/src/systems.rs` lines 119-158,
`handle_simulate_step_response` in `src/client/src/systems.rs`; the three are
textually identical): `result.get(&handle.0).unwrap()` — `none` models the
panic of `unwrap` on a missing key; then the pose is assigned without any
comparison (translation and rotation only), while the velocity is assigned
only when `**velocity != *new_velocity`. -/
def writebackEntity (result : List (Nat × (Transform × Velocity)))
    (e : WritebackEntity) : Option WritebackEntity :=
  match lookupAssoc result e.handle with
  | none => none
  | some (nt, nv) =>
    let e1 :=
      match e.transform with
      | some t =>
        { e with
          transform := some { t with translation := nt.translation, rotation := nt.rotation }
          transformChanged := true }
      | none => e
    some
      (match e1.velocity with
        | some v =>
          if velocityEq v nv then e1
          else { e1 with velocity := some nv, velocityChanged := true }
        | none => e1)

/-- The writeback loop over every tracked entity; `none` when any entity's
handle is absent from the received result map (the `unwrap` panic aborts the
whole system). -/
def writeback (result : List (Nat × (Transform × Velocity))) :
    List WritebackEntity → Option (List WritebackEntity)
  | [] => some []
  | e :: rest =>
    match writebackEntity result e with
    | none => none
    | some e1 =>
      match writeback result rest with
      | none => none
      | some rest1 => some (e1 :: rest1)

theorem writeback_get (result : List (Nat × (Transform × Velocity)))
    (es : List WritebackEntity) (out : List WritebackEntity)
    (h : writeback result es = some out) :
    ∀ i, out.get? i = (es.get? i).bind (writebackEntity result) := by
  induction es generalizing out with
  | nil =>
    simp only [writeback, Option.some.injEq] at h
    subst h; intro i; simp
  | cons e rest ih =>
    intro i
    cases he : writebackEntity result e with
    | none => simp [writeback, he] at h
    | some e1 =>
      cases hrest : writeback result rest with
      | none => simp [writeback, he, hrest] at h
      | some rest1 =>
        simp only [writeback, he, hrest, Option.some.injEq] at h
        subst h
        match i with
        | 0 => simp [he]
        | Nat.succ j => simpa using ih rest1 hrest j

/-- C5. During writeback, a tracked entity with a recorded handle and both
components has its pose overwritten unconditionally (translation and rotation
from the result, scale untouched, the transform marked changed), while its
velocity is overwritten — and thereby freshly marked mutated — exactly when
the received velocity differs from the stored one; on equality the component
and its change flag are left untouched. -/
theorem writeback_change_suppression (result : List (Nat × (Transform × Velocity)))
    (es out : List WritebackEntity) (hw : writeback result es = some out) :
    ∀ i e t v nt nv, es.get? i = some e → e.transform = some t → e.velocity = some v →
      lookupAssoc result e.handle = some (nt, nv) →
      ∃ e1, out.get? i = some e1 ∧
        e1.handle = e.handle ∧
        e1.transform = some { t with translation := nt.translation, rotation := nt.rotation } ∧
        e1.transformChanged = true ∧
        (velocityEq v nv = true →
          e1.velocity = some v ∧ e1.velocityChanged = e.velocityChanged) ∧
        (velocityEq v nv = false → e1.velocity = some nv ∧ e1.velocityChanged = true) := by
  intro i e t v nt nv hi ht hv hlook
  have hget := writeback_get result es out hw i
  rw [hi] at hget
  simp only [Option.some_bind] at hget
  cases hveq : velocityEq v nv with
  | true =>
    have hwe : writebackEntity result e =
        some { e with
          transform := some { t with translation := nt.translation, rotation := nt.rotation }
          transformChanged := true } := by
      simp [writebackEntity, hlook, ht, hv, hveq]
    refine ⟨_, hget.trans hwe, rfl, rfl, rfl, ?_, ?_⟩
    · intro _; exact ⟨by simp [hv], rfl⟩
    · intro hfalse; simp at hfalse
  | false =>
    have hwe : writebackEntity result e =
        some { e with
          transform := some { t with translation := nt.translation, rotation := nt.rotation }
          transformChanged := true
          velocity := some nv
          velocityChanged := true } := by
      simp [writebackEntity, hlook, ht, hv, hveq]
    refine ⟨_, hget.trans hwe, rfl, rfl, rfl, ?_, ?_⟩
    · intro htrue; simp at htrue
    · intro _; exact ⟨rfl, rfl⟩

/-- Concrete instantiation of C5: a tracked entity whose received velocity
equals the stored one (pose still overwritten, velocity flag untouched). -/
theorem writeback_change_suppression_witness :
    writeback
        [(0, (⟨Vect.zero, Quat4.identity, Vect.zero⟩, ⟨Vect.zero, Vect.zero⟩))]
        [⟨0, some ⟨⟨f32One, f32One, f32One⟩, Quat4.identity, Vect.zero⟩,
            some ⟨Vect.zero, Vect.zero⟩, false, false⟩] =
      some
        [⟨0, some ⟨Vect.zero, Quat4.identity, Vect.zero⟩,
            some ⟨Vect.zero, Vect.zero⟩, true, false⟩] ∧
      ∃ e1,
        ([⟨0, some ⟨Vect.zero, Quat4.identity, Vect.zero⟩,
              some ⟨Vect.zero, Vect.zero⟩, true, false⟩] :
            List WritebackEntity).get? 0 = some e1 ∧
          e1.handle = 0 ∧
          e1.transform = some ⟨Vect.zero, Quat4.identity, Vect.zero⟩ ∧
          e1.transformChanged = true ∧
          (velocityEq ⟨Vect.zero, Vect.zero⟩ ⟨Vect.zero, Vect.zero⟩ = true →
            e1.velocity = some ⟨Vect.zero, Vect.zero⟩ ∧ e1.velocityChanged = false) ∧
          (velocityEq ⟨Vect.zero, Vect.zero⟩ ⟨Vect.zero, Vect.zero⟩ = false →
            e1.velocity = some ⟨Vect.zero, Vect.zero⟩ ∧ e1.velocityChanged = true) :=
  ⟨by decide,
    writeback_change_suppression
      [(0, (⟨Vect.zero, Quat4.identity, Vect.zero⟩, ⟨Vect.zero, Vect.zero⟩))]
      [⟨0, some ⟨⟨f32One, f32One, f32One⟩, Quat4.identity, Vect.zero⟩,
          some ⟨Vect.zero, Vect.zero⟩, false, false⟩]
      [⟨0, some ⟨Vect.zero, Quat4.identity, Vect.zero⟩,
          some ⟨Vect.zero, Vect.zero⟩, true, false⟩]
      (by decide) 0
      ⟨0, some ⟨⟨f32One, f32One, f32One⟩, Quat4.identity, Vect.zero⟩,
        some ⟨Vect.zero, Vect.zero⟩, false, false⟩
      ⟨⟨f32One, f32One, f32One⟩, Quat4.identity, Vect.zero⟩
      ⟨Vect.zero, Vect.zero⟩
      ⟨Vect.zero, Quat4.identity, Vect.zero⟩
      ⟨Vect.zero, Vect.zero⟩
      (by decide) (by decide) (by decide) (by decide)⟩

theorem writebackEntity_none_iff (result : List (Nat × (Transform × Velocity)))
    (e : WritebackEntity) :
    writebackEntity result e = none ↔ lookupAssoc result e.handle = none := by
  cases h : lookupAssoc result e.handle with
  | none => simp [writebackEntity, h]
  | some p => obtain ⟨nt, nv⟩ := p; simp [writebackEntity, h]

/-- C10. The frame-side writeback unwraps the map lookup for every tracked
entity: it aborts (the `unwrap` panic, modelled as `none`) exactly when some
tracked entity's recorded handle has no entry in the received result map, and
completes for every tracked entity otherwise — there is no skip path and no
typed error for a partially covering result. -/
theorem writeback_unwrap_panic (result : List (Nat × (Transform × Velocity)))
    (es : List WritebackEntity) :
    writeback result es = none ↔ ∃ e ∈ es, lookupAssoc result e.handle = none := by
  induction es with
  | nil => simp [writeback]
  | cons e rest ih =>
    cases hwe : writebackEntity result e with
    | none =>
      simp only [writeback, hwe]
      constructor
      · intro _
        exact ⟨e, List.mem_cons_self _ _, (writebackEntity_none_iff result e).mp hwe⟩
      · intro _; trivial
    | some e1 =>
      cases hrest : writeback result rest with
      | none =>
        simp only [writeback, hwe, hrest]
        constructor
        · intro _
          obtain ⟨e2, he2, hn⟩ := ih.mp hrest
          exact ⟨e2, List.mem_cons_of_mem _ he2, hn⟩
        · intro _; trivial
      | some rest1 =>
        simp only [writeback, hwe, hrest]
        constructor
        · intro h; exact absurd h (by simp)
        · rintro ⟨e2, he2, hn⟩
          rcases List.mem_cons.mp he2 with h | h
          · subst h
            rw [(writebackEntity_none_iff result e2).mpr hn] at hwe
            cases hwe
          · rw [ih.mpr ⟨e2, h, hn⟩] at hrest
            cases hrest

/-- Concrete instantiation of C10: one tracked entity holding handle 3 while
the result map only covers handle 0, so the writeback system panics. -/
theorem writeback_unwrap_panic_witness :
    writeback [(0, (⟨Vect.zero, Quat4.identity, Vect.zero⟩, ⟨Vect.zero, Vect.zero⟩))]
        [⟨3, none, none, false, false⟩] = none :=
  (writeback_unwrap_panic
      [(0, (⟨Vect.zero, Quat4.identity, Vect.zero⟩, ⟨Vect.zero, Vect.zero⟩))]
      [⟨3, none, none, false, false⟩]).mpr
    ⟨⟨3, none, none, false, false⟩, by decide, by decide⟩

/-- The `TimestepMode` enum of bevy_rapier (fixed, variable, interpolated
stepping with substep counts), carried by the config. -/
inductive TimestepMode where
  | Fixed (dt : F32) (substeps : U64)
  | Variable (max_dt : F32) (time_scale : F32) (substeps : U64)
  | Interpolated (dt : F32) (time_scale : F32) (substeps : U64)
deriving DecidableEq

/-- Modelled from the spec: `SerializableRapierConfiguration`
(`src/shared/src/serializable.rs` is not under `src/`); per the spec's data
model the config carries the gravity vector and the timestep policy with its
substep parameters. -/
structure Config where
  gravity : Vect
  timestep_mode : TimestepMode
deriving DecidableEq

/-- The `Request` enum of the batching generation (`src/shared/src/lib.rs`
lines 33-39, plus the `BulkRequest` variant used by
`src/client/src/systems.rs`; the bulk wrapper is modelled at the transport
level as the list handed to `processBulk`). -/
inductive Request where
  | UpdateConfig (config : Config)
  | CreateBodies (bodies : List CreatedBody)
  | CreateColliders (colliders : List CreatedCollider)
  | SimulateStep (dt : F32)
deriving DecidableEq

/-- The `Response` enum (`src/shared/src/lib.rs` lines 52-58); the
`BulkResponse` wrapper is modelled as the list returned by `processBulk`. -/
inductive Response where
  | ConfigUpdated
  | RigidBodyHandles (handles : List (U64 × Nat))
  | ColliderHandles (handles : List (U64 × Nat))
  | SimulationResult (result : List (Nat × (Transform × Velocity)))
deriving DecidableEq

/-- Backend state of the batching generation: the physics context plus the
active config. -/
structure ServerState where
  ctx : RapierContext
  config : Option Config
deriving DecidableEq

/-- The initial backend state of a fresh connection. -/
def ServerState.init : ServerState := ⟨RapierContext.empty, none⟩

/-- Modelled from the spec: the backend binary of the batching generation is
not under `src/` (only its client is); per the spec each request kind is
processed exactly as by the per-request arms that do exist in
`src/bevy/physics_server/src/main.rs`, plus the idempotent `UpdateConfig` →
`ConfigUpdated` arm that replaces the active config. -/
def processRequest (stepFn : F32 → RigidBodyData → RigidBodyData)
    (readback : RigidBodyData → Transform × Velocity)
    (st : ServerState) : Request → ServerState × Response
  | .UpdateConfig cfg => ({ st with config := some cfg }, .ConfigUpdated)
  | .CreateBodies bs =>
    let out := create_bodies bs st.ctx
    ({ st with ctx := out.1 }, .RigidBodyHandles out.2)
  | .CreateColliders cs =>
    let out := create_colliders cs st.ctx
    ({ st with ctx := out.1 }, .ColliderHandles out.2)
  | .SimulateStep dt =>
    let out := simulate_step (stepFn dt) readback st.ctx
    ({ st with ctx := out.1 }, .SimulationResult out.2)

/-- Modelled from the spec: the backend `BulkRequest` arm processes the
sub-requests one after another on the same state and collects the responses
in order into one `BulkResponse`. -/
def processBulk (stepFn : F32 → RigidBodyData → RigidBodyData)
    (readback : RigidBodyData → Transform × Velocity) :
    ServerState → List Request → ServerState × List Response
  | st, [] => (st, [])
  | st, r :: rs =>
    let out := processRequest stepFn readback st r
    let rest := processBulk stepFn readback out.1 rs
    (rest.1, out.2 :: rest.2)

/-- The backend state after a sequence of individually sent requests. -/
def stateAfter (stepFn : F32 → RigidBodyData → RigidBodyData)
    (readback : RigidBodyData → Transform × Velocity)
    (st : ServerState) (rs : List Request) : ServerState :=
  rs.foldl (fun s r => (processRequest stepFn readback s r).1) st

/-- The responses the backend would produce for the requests sent one at a
time, sequentially, each against the state left by its predecessors — the
spec's reference semantics for `BulkRequest`. -/
def individualSends (stepFn : F32 → RigidBodyData → RigidBodyData)
    (readback : RigidBodyData → Transform × Velocity) :
    ServerState → List Request → List Response
  | _, [] => []
  | st, r :: rs =>
    (processRequest stepFn readback st r).2 ::
      individualSends stepFn readback (processRequest stepFn readback st r).1 rs

/-- The frame-side world as touched by the response handlers of
`src/client/src/systems.rs`: handle components inserted by `Commands`, the
tracked rigid bodies of the writeback query, and observable log counters. -/
structure ClientWorld where
  bodyHandles : List (U64 × Nat)
  colliderHandles : List (U64 × Nat)
  tracked : List WritebackEntity
  configAcks : Nat
deriving DecidableEq

/-- `handle_update_config_response` (`src/client/src/systems.rs` lines 38-46):
logs the acknowledgement. -/
def handle_update_config_response (w : ClientWorld) : ClientWorld :=
  { w with configAcks := w.configAcks + 1 }

/-- `handle_init_rigid_bodies_response` (lines 77-85): inserts a
`RapierRigidBodyHandle` component for each returned pair, in order. -/
def handle_init_rigid_bodies_response (w : ClientWorld) (handles : List (U64 × Nat)) :
    ClientWorld :=
  { w with bodyHandles := w.bodyHandles ++ handles }

/-- `handle_init_colliders_response` (lines 120-128): inserts a
`RapierColliderHandle` component for each returned pair, in order. -/
def handle_init_colliders_response (w : ClientWorld) (handles : List (U64 × Nat)) :
    ClientWorld :=
  { w with colliderHandles := w.colliderHandles ++ handles }

/-- `handle_simulate_step_response` (lines 136-161): the writeback loop of C5
and C10 over the tracked entities (`none` models its `unwrap` panic). -/
def handle_simulate_step_response (w : ClientWorld)
    (result : List (Nat × (Transform × Velocity))) : Option ClientWorld :=
  (writeback result w.tracked).map fun tr => { w with tracked := tr }

/-- The dispatch `match` of `process_requests` (lines 178-197): each element
of the bulk response is routed to the handler of its own response kind. -/
def dispatchResponse (w : ClientWorld) : Response → Option ClientWorld
  | .ConfigUpdated => some (handle_update_config_response w)
  | .RigidBodyHandles hs => some (handle_init_rigid_bodies_response w hs)
  | .ColliderHandles hs => some (handle_init_colliders_response w hs)
  | .SimulationResult res => handle_simulate_step_response w res

/-- Dispatching the bulk response elements in receipt order. -/
def dispatchAll : ClientWorld → List Response → Option ClientWorld
  | w, [] => some w
  | w, r :: rs =>
    match dispatchResponse w r with
    | none => none
    | some w1 => dispatchAll w1 rs

/-- `process_requests` (`src/client/src/systems.rs` lines 163-201): the
per-frame queue is drained into a single `BulkRequest`, sent once, and each
`BulkResponse` element is dispatched to its kind's handler in receipt order. -/
def process_requests (stepFn : F32 → RigidBodyData → RigidBodyData)
    (readback : RigidBodyData → Transform × Velocity)
    (w : ClientWorld) (queue : List Request) (st : ServerState) :
    ServerState × Option ClientWorld :=
  let out := processBulk stepFn readback st queue
  (out.1, dispatchAll w out.2)

theorem processBulk_state (stepFn : F32 → RigidBodyData → RigidBodyData)
    (readback : RigidBodyData → Transform × Velocity) (queue : List Request) :
    ∀ st, (processBulk stepFn readback st queue).1 = stateAfter stepFn readback st queue := by
  induction queue with
  | nil => intro st; rfl
  | cons r rs ih => intro st; simp [processBulk, stateAfter, List.foldl_cons] at ih ⊢; exact ih _

theorem processBulk_eq_individualSends (stepFn : F32 → RigidBodyData → RigidBodyData)
    (readback : RigidBodyData → Transform × Velocity) (queue : List Request) :
    ∀ st, (processBulk stepFn readback st queue).2 = individualSends stepFn readback st queue := by
  induction queue with
  | nil => intro st; rfl
  | cons r rs ih => intro st; simp [processBulk, individualSends, ih]

/-- C4. Bulk equivalence and batched dispatch: the bulk response has exactly
one element per sub-request, in order; its i-th element is the response the
backend would produce for the i-th request sent individually against the
state evolved through the first i requests; the final state equals the state
after sequential individual sends; and the frame side sends the whole drained
queue as one request and folds the handlers of each response kind over the
bulk response in receipt order. -/
theorem bulk_request_equivalence (stepFn : F32 → RigidBodyData → RigidBodyData)
    (readback : RigidBodyData → Transform × Velocity)
    (st : ServerState) (queue : List Request) :
    (processBulk stepFn readback st queue).2 = individualSends stepFn readback st queue ∧
      (processBulk stepFn readback st queue).2.length = queue.length ∧
      (processBulk stepFn readback st queue).1 = stateAfter stepFn readback st queue ∧
      (∀ i r, queue.get? i = some r →
        (processBulk stepFn readback st queue).2.get? i =
          some (processRequest stepFn readback
              (stateAfter stepFn readback st (queue.take i)) r).2) ∧
      ∀ w, process_requests stepFn readback w queue st =
        (stateAfter stepFn readback st queue,
          dispatchAll w (individualSends stepFn readback st queue)) := by
  refine ⟨processBulk_eq_individualSends stepFn readback queue st, ?_, ?_, ?_, ?_⟩
  · induction queue generalizing st with
    | nil => rfl
    | cons r rs ih => simp [processBulk, ih]
  · exact processBulk_state stepFn readback queue st
  · intro i r h
    induction queue generalizing st i with
    | nil => simp at h
    | cons q rs ih =>
      match i with
      | 0 =>
        have hq : q = r := by simpa using h
        subst hq
        simp [processBulk, stateAfter]
      | Nat.succ j =>
        have hj : rs.get? j = some r := by simpa using h
        have := ih ((processRequest stepFn readback st q).1) j hj
        simpa [processBulk, stateAfter, List.foldl_cons] using this
  · intro w
    show ((processBulk stepFn readback st queue).1,
        dispatchAll w (processBulk stepFn readback st queue).2) = _
    rw [processBulk_state stepFn readback queue st,
      processBulk_eq_individualSends stepFn readback queue st]

/-- A trivial integrator (bodies unchanged by the step). -/
def stepIdent : F32 → RigidBodyData → RigidBodyData := fun _ rb => rb

/-- A readback reporting the stored pose and velocity at unit scale. -/
def readbackPose : RigidBodyData → Transform × Velocity := fun rb =>
  (⟨rb.position.translation, rb.position.rotation, Vect.zero⟩, ⟨rb.linvel, rb.angvel⟩)

/-- A representative heterogeneous frame queue: config update, body creation,
collider creation, then the step request. -/
def sampleQueue : List Request :=
  [Request.UpdateConfig ⟨Vect.zero, TimestepMode.Variable f32One f32One ⟨1, by norm_num⟩⟩,
    Request.CreateBodies [⟨⟨5, by norm_num⟩, RigidBody.Dynamic, none, none⟩],
    Request.CreateColliders [⟨⟨5, by norm_num⟩, Shape.Ball f32One, none, none, none, none, none⟩],
    Request.SimulateStep f32One]

/-- Concrete instantiation of C4 on `sampleQueue` against a fresh backend. -/
theorem bulk_request_equivalence_witness :
    (processBulk stepIdent readbackPose ServerState.init sampleQueue).2 =
        individualSends stepIdent readbackPose ServerState.init sampleQueue ∧
      (processBulk stepIdent readbackPose ServerState.init sampleQueue).2.length =
        sampleQueue.length ∧
      (processBulk stepIdent readbackPose ServerState.init sampleQueue).1 =
        stateAfter stepIdent readbackPose ServerState.init sampleQueue ∧
      (∀ i r, sampleQueue.get? i = some r →
        (processBulk stepIdent readbackPose ServerState.init sampleQueue).2.get? i =
          some (processRequest stepIdent readbackPose
              (stateAfter stepIdent readbackPose ServerState.init (sampleQueue.take i)) r).2) ∧
      ∀ w, process_requests stepIdent readbackPose w sampleQueue ServerState.init =
        (stateAfter stepIdent readbackPose ServerState.init sampleQueue,
          dispatchAll w (individualSends stepIdent readbackPose ServerState.init sampleQueue)) :=
  bulk_request_equivalence stepIdent readbackPose ServerState.init sampleQueue

/-- The path test of the handshake callback in `handle_connection`
(`src/bevy/physics_server/src/main.rs` line 112): `req.uri().path() == "/ws"`. -/
def is_socket_path (path : String) : Bool := path == "/ws"

/-- Status of the handshake response written by the callback (lines 112-115):
tungstenite hands the callback the `101 Switching Protocols` accept response,
and the callback overwrites the status with `404 Not Found` exactly when the
request path IS the designated socket path; on every other path the accept
response is left untouched. The callback always returns `Ok`, so it never
makes tungstenite reject a syntactically valid upgrade. -/
def handshakeResponseStatus (path : String) : Nat :=
  if is_socket_path path then 404 else 101

/-- The reply chosen when the websocket handshake itself fails, e.g. for a
plain HTTP `GET` without upgrade headers (lines 134-148): `403` with an
"Access via websocket protocol" JSON body when the recorded path was `/ws`,
otherwise `404` with a "Not found" JSON body. A plain `GET` never reaches the
callback (tungstenite rejects it while building the accept response), so its
recorded `is_socket_path` is `false` and it receives the `404` reply. -/
def handshakeErrorReply (socketPath : Bool) : Nat × String :=
  if socketPath then (403, "\x7b\"error\": \"Access via websocket protocol\"\x7d")
  else (404, "\x7b\"error\": \"Not found\"\x7d")

/-- C7 (code bug). Evaluating the handshake logic at the failing inputs: a
valid upgrade on the designated path `/ws` has its response status overwritten
to `404` (not accepted with the `101` success status the claim requires),
while an upgrade on an unrecognized path keeps the `101` accept status (it is
not rejected); and a plain `GET /` (a failed handshake recorded with
`is_socket_path = false`) is answered with status `404`, not `400`. -/
theorem handshake_path_handling :
    handshakeResponseStatus "/ws" = 404 ∧
      handshakeResponseStatus "/socket" = 101 ∧
      handshakeResponseStatus "/" = 101 ∧
      is_socket_path "/" = false ∧
      handshakeErrorReply false = (404, "\x7b\"error\": \"Not found\"\x7d") ∧
      handshakeErrorReply true = (403, "\x7b\"error\": \"Access via websocket protocol\"\x7d") :=
  ⟨rfl, rfl, rfl, rfl, rfl, rfl⟩

/-- The backend's simulated-latency configuration
(`src/bevy/physics_server/src/main.rs` lines 20-25). -/
inductive SimulatedLatency where
  | none
  | Fixed (latency : Nat)
  | Random (min : Nat) (mean : Nat)
deriving DecidableEq

/-- Outcome of the CLI startup phase before the listener is bound. -/
inductive StartupOutcome where
  | aborted
  | listening (cfg : SimulatedLatency)
deriving DecidableEq

/-- The `match` on `(--latency, --min)` in `main` (lines 55-71). When both are
given and `min >= latency`, the code calls `cmd.error(ValueValidation, "min
must be less than latency")` — but `Command::error` only CONSTRUCTS the
`clap::Error`; without `.exit()` the value is dropped and execution falls
through to `SimulatedLatency::Random`, so the function below reaches
`listening` on that input. `--min` without `--latency` is rejected earlier by
clap's `requires("latency")` inside `get_matches`, which does abort. -/
def startupLatencyConfig : Option Nat → Option Nat → StartupOutcome
  | some latency, Option.none => .listening (.Fixed latency)
  | some latency, some m => .listening (.Random m latency)
  | Option.none, Option.none => .listening .none
  | Option.none, some _ => .aborted

/-- C8 (code bug). Evaluating the startup logic at the failing input
`--latency 50 --min 50` (and `--min 60`): the process does NOT abort — it
proceeds to bind and accept with a randomized-latency configuration whose
minimum is not strictly below the mean, because the constructed validation
error is discarded without `.exit()`. -/
theorem startup_min_ge_latency_proceeds :
    startupLatencyConfig (some 50) (some 50) = .listening (.Random 50 50) ∧
      startupLatencyConfig (some 50) (some 60) = .listening (.Random 60 50) ∧
      startupLatencyConfig (some 50) (some 10) = .listening (.Random 10 50) ∧
      startupLatencyConfig (some 50) Option.none = .listening (.Fixed 50) ∧
      startupLatencyConfig Option.none Option.none = .listening .none ∧
      startupLatencyConfig Option.none (some 10) = .aborted :=
  ⟨rfl, rfl, rfl, rfl, rfl, rfl⟩

/-- The sampled expression `-rng.gen::<f64>().ln() * (mean - min) as f64` of
`simulate_latency` (`src/bevy/physics_server/src/main.rs` line 202), over the
reals: `u` is the uniform sample from `[0, 1)`, the factor is the `u64`
difference `mean - min` (truncated Nat subtraction, faithful to the unsigned
subtraction for `min ≤ mean`). -/
noncomputable def expovariateTerm (u : ℝ) (lmin lmean : ℕ) : ℝ :=
  -Real.log u * ((lmean - lmin : ℕ) : ℝ)

/-- The delay (in milliseconds) injected by `simulate_latency` before a reply
(lines 196-210): nothing when unconfigured, exactly the configured latency
when fixed, and `(min as f64 + expovariate) as u64` — the truncating cast is
the floor of the nonnegative real — when randomized. -/
noncomputable def injectedDelay : SimulatedLatency → ℝ → Option Nat
  | SimulatedLatency.none, _ => Option.none
  | SimulatedLatency.Fixed latency, _ => some latency
  | SimulatedLatency.Random lmin lmean, u =>
    some (Nat.floor ((lmin : ℝ) + expovariateTerm u lmin lmean))

/-- C9. With `Random min mean` (from `--latency mean --min min`, `min ≤ mean`)
every injected delay is `min` plus a nonnegative exponential term, hence at
least `min` milliseconds; with `Fixed`, the delay equals the configured
latency exactly; unconfigured, no delay is injected; and the expectation of
the sampled delay over the uniform sample — the improper integral over
`(0, 1]` — equals `mean`, so the term's expectation is `mean - min`. -/
theorem simulated_latency_distribution (lmin lmean : ℕ) (u : ℝ)
    (hu0 : 0 ≤ u) (hu1 : u ≤ 1) (hmm : lmin ≤ lmean) :
    0 ≤ expovariateTerm u lmin lmean ∧
      (∀ d, injectedDelay (SimulatedLatency.Random lmin lmean) u = some d → lmin ≤ d) ∧
      (∀ l, injectedDelay (SimulatedLatency.Fixed l) u = some l) ∧
      injectedDelay SimulatedLatency.none u = Option.none ∧
      Filter.Tendsto
        (fun a : ℝ => ∫ x in a..1, ((lmin : ℝ) + expovariateTerm x lmin lmean))
        (nhdsWithin 0 (Set.Ioi 0)) (nhds (lmean : ℝ)) := by
  have hk0 : (0 : ℝ) ≤ ((lmean - lmin : ℕ) : ℝ) := Nat.cast_nonneg _
  have hlog : Real.log u ≤ 0 := Real.log_nonpos hu0 hu1
  have hterm : 0 ≤ expovariateTerm u lmin lmean := by
    unfold expovariateTerm
    exact mul_nonneg (by linarith) hk0
  refine ⟨hterm, ?_, fun l => rfl, rfl, ?_⟩
  · intro d hd
    simp only [injectedDelay, Option.some.injEq] at hd
    subst hd
    exact Nat.le_floor (by linarith)
  · have hclosed : ∀ a : ℝ, a ∈ Set.Ioi (0 : ℝ) →
        (∫ x in a..1, ((lmin : ℝ) + expovariateTerm x lmin lmean)) =
          (lmin : ℝ) * (1 - a) +
            ((lmean - lmin : ℕ) : ℝ) * (a * Real.log a + 1 - a) := by
      intro a ha
      have ha0 : (0 : ℝ) < a := ha
      have hnot : (0 : ℝ) ∉ Set.uIcc a 1 := Set.not_mem_uIcc_of_lt ha0 one_pos
      have hil : IntervalIntegrable Real.log MeasureTheory.volume a 1 :=
        intervalIntegral.intervalIntegrable_log hnot
      have hI : IntervalIntegrable
          (fun x : ℝ => -Real.log x * ((lmean - lmin : ℕ) : ℝ))
          MeasureTheory.volume a 1 := hil.neg.mul_const _
      have hsplit : (∫ x in a..1, ((lmin : ℝ) + expovariateTerm x lmin lmean)) =
          (∫ _x in a..1, (lmin : ℝ)) +
            ∫ x in a..1, -Real.log x * ((lmean - lmin : ℕ) : ℝ) :=
        intervalIntegral.integral_add intervalIntegrable_const hI
      rw [hsplit, intervalIntegral.integral_const,
        intervalIntegral.integral_mul_const, intervalIntegral.integral_neg,
        integral_log hnot, Real.log_one, smul_eq_mul]
      ring
    have hcont : Continuous fun a : ℝ =>
        (lmin : ℝ) * (1 - a) + ((lmean - lmin : ℕ) : ℝ) * (a * Real.log a + 1 - a) := by
      have hml := Real.continuous_mul_log
      have h1 : Continuous fun a : ℝ => (lmin : ℝ) * (1 - a) :=
        continuous_const.mul (continuous_const.sub continuous_id)
      have h2 : Continuous fun a : ℝ => a * Real.log a + 1 - a :=
        (hml.add continuous_const).sub continuous_id
      exact h1.add (continuous_const.mul h2)
    have h0 : Filter.Tendsto
        (fun a : ℝ => (lmin : ℝ) * (1 - a) +
          ((lmean - lmin : ℕ) : ℝ) * (a * Real.log a + 1 - a))
        (nhdsWithin 0 (Set.Ioi 0))
        (nhds ((lmin : ℝ) * (1 - 0) +
          ((lmean - lmin : ℕ) : ℝ) * (0 * Real.log 0 + 1 - 0))) :=
      (hcont.tendsto 0).mono_left nhdsWithin_le_nhds
    have hval : (lmin : ℝ) * (1 - 0) +
        ((lmean - lmin : ℕ) : ℝ) * (0 * Real.log 0 + 1 - 0) = (lmean : ℝ) := by
      rw [Nat.cast_sub hmm]; ring
    rw [hval] at h0
    exact Filter.Tendsto.congr'
      (Filter.eventuallyEq_of_mem self_mem_nhdsWithin fun a ha => (hclosed a ha).symm) h0

/-- Concrete instantiation of C9 at `--latency 50 --min 10` with the sample
`u = 1/2`. -/
theorem simulated_latency_distribution_witness :
    (0 ≤ (1 / 2 : ℝ) ∧ (1 / 2 : ℝ) ≤ 1 ∧ (10 : ℕ) ≤ 50) ∧
      (0 ≤ expovariateTerm (1 / 2) 10 50 ∧
        (∀ d, injectedDelay (SimulatedLatency.Random 10 50) (1 / 2) = some d → 10 ≤ d) ∧
        (∀ l, injectedDelay (SimulatedLatency.Fixed l) (1 / 2) = some l) ∧
        injectedDelay SimulatedLatency.none (1 / 2) = Option.none ∧
        Filter.Tendsto
          (fun a : ℝ => ∫ x in a..1, ((10 : ℕ) : ℝ) + expovariateTerm x 10 50)
          (nhdsWithin 0 (Set.Ioi 0)) (nhds ((50 : ℕ) : ℝ))) :=
  ⟨⟨by norm_num, by norm_num, by norm_num⟩,
    simulated_latency_distribution 10 50 (1 / 2) (by norm_num) (by norm_num) (by norm_num)⟩

/-- Little-endian byte encoding of a 32-bit value (bincode fixed-int
encoding; also the IEEE byte serialization of an `f32` bit pattern). -/
def encU32N (n : Nat) : List Nat :=
  [n % 2 ^ 8, n / 2 ^ 8 % 2 ^ 8, n / 2 ^ 16 % 2 ^ 8, n / 2 ^ 24 % 2 ^ 8]

/-- Little-endian byte encoding of a 64-bit value (bincode `u64`, also list
lengths). -/
def encU64N (n : Nat) : List Nat :=
  [n % 2 ^ 8, n / 2 ^ 8 % 2 ^ 8, n / 2 ^ 16 % 2 ^ 8, n / 2 ^ 24 % 2 ^ 8,
    n / 2 ^ 32 % 2 ^ 8, n / 2 ^ 40 % 2 ^ 8, n / 2 ^ 48 % 2 ^ 8, n / 2 ^ 56 % 2 ^ 8]

/-- Read four little-endian bytes. -/
def readU32 : List Nat → Option (Nat × List Nat)
  | b0 :: b1 :: b2 :: b3 :: rest =>
    some (b0 + 2 ^ 8 * b1 + 2 ^ 16 * b2 + 2 ^ 24 * b3, rest)
  | _ => none

/-- Read eight little-endian bytes. -/
def readU64 : List Nat → Option (Nat × List Nat)
  | b0 :: b1 :: b2 :: b3 :: b4 :: b5 :: b6 :: b7 :: rest =>
    some (b0 + 2 ^ 8 * b1 + 2 ^ 16 * b2 + 2 ^ 24 * b3 + 2 ^ 32 * b4 + 2 ^ 40 * b5 +
      2 ^ 48 * b6 + 2 ^ 56 * b7, rest)
  | _ => none

theorem readU32_enc (n : Nat) (h : n < 2 ^ 32) (rest : List Nat) :
    readU32 (encU32N n ++ rest) = some (n, rest) := by
  simp only [encU32N, List.cons_append, List.nil_append, readU32, Option.some.injEq,
    Prod.mk.injEq, and_true]
  omega

theorem readU64_enc (n : Nat) (h : n < 2 ^ 64) (rest : List Nat) :
    readU64 (encU64N n ++ rest) = some (n, rest) := by
  simp only [encU64N, List.cons_append, List.nil_append, readU64, Option.some.injEq,
    Prod.mk.injEq, and_true]
  omega

/-- Serialization of an `f32` (its four IEEE bytes). -/
def encF32 (x : F32) : List Nat := encU32N x.val

/-- Deserialization of an `f32`. -/
def decF32 (bs : List Nat) : Option (F32 × List Nat) :=
  match readU32 bs with
  | some (n, rest) => if h : n < 2 ^ 32 then some (⟨n, h⟩, rest) else none
  | none => none

theorem decF32_enc (x : F32) (rest : List Nat) :
    decF32 (encF32 x ++ rest) = some (x, rest) := by
  unfold decF32 encF32
  rw [readU32_enc x.val x.isLt rest]
  simp [x.isLt]

/-- Serialization of a `u64`. -/
def encU64 (x : U64) : List Nat := encU64N x.val

/-- Deserialization of a `u64`. -/
def decU64 (bs : List Nat) : Option (U64 × List Nat) :=
  match readU64 bs with
  | some (n, rest) => if h : n < 2 ^ 64 then some (⟨n, h⟩, rest) else none
  | none => none

theorem decU64_enc (x : U64) (rest : List Nat) :
    decU64 (encU64 x ++ rest) = some (x, rest) := by
  unfold decU64 encU64
  rw [readU64_enc x.val x.isLt rest]
  simp [x.isLt]

/-- Serialization of a `bool` (bincode: one byte, `0` or `1`). -/
def encBool (b : Bool) : List Nat := [if b then 1 else 0]

/-- Deserialization of a `bool`. -/
def decBool : List Nat → Option (Bool × List Nat)
  | 0 :: rest => some (false, rest)
  | 1 :: rest => some (true, rest)
  | _ => none

theorem decBool_enc (b : Bool) (rest : List Nat) :
    decBool (encBool b ++ rest) = some (b, rest) := by
  cases b <;> rfl

/-- Serialization of an `Option` (bincode: a one-byte tag then the value). -/
def encOption {α : Type} (enc : α → List Nat) : Option α → List Nat
  | Option.none => [0]
  | some a => 1 :: enc a

/-- Deserialization of an `Option`. -/
def decOption {α : Type} (dec : List Nat → Option (α × List Nat)) :
    List Nat → Option (Option α × List Nat)
  | 0 :: rest => some (Option.none, rest)
  | 1 :: rest =>
    match dec rest with
    | some (a, rest1) => some (some a, rest1)
    | none => none
  | _ => none

theorem decOption_enc {α : Type} (enc : α → List Nat)
    (dec : List Nat → Option (α × List Nat)) (x : Option α) (rest : List Nat)
    (he : ∀ a r, x = some a → dec (enc a ++ r) = some (a, r)) :
    decOption dec (encOption enc x ++ rest) = some (x, rest) := by
  cases x with
  | none => rfl
  | some a =>
    simp only [encOption, List.cons_append, decOption, he a rest rfl]

/-- Serialization of a `Vec` (bincode: the `u64` length then the elements). -/
def encList {α : Type} (enc : α → List Nat) (xs : List α) : List Nat :=
  encU64N xs.length ++ (xs.map enc).flatten

/-- Deserialization of exactly `n` consecutive elements. -/
def decCount {α : Type} (dec : List Nat → Option (α × List Nat)) :
    Nat → List Nat → Option (List α × List Nat)
  | 0, bs => some ([], bs)
  | n + 1, bs =>
    match dec bs with
    | some (a, bs1) =>
      match decCount dec n bs1 with
      | some (as, bs2) => some (a :: as, bs2)
      | none => none
    | none => none

/-- Deserialization of a `Vec`. -/
def decList {α : Type} (dec : List Nat → Option (α × List Nat)) (bs : List Nat) :
    Option (List α × List Nat) :=
  match readU64 bs with
  | some (n, bs1) => decCount dec n bs1
  | none => none

theorem decCount_enc {α : Type} (enc : α → List Nat)
    (dec : List Nat → Option (α × List Nat)) :
    ∀ (xs : List α) (rest : List Nat),
      (∀ a ∈ xs, ∀ r : List Nat, dec (enc a ++ r) = some (a, r)) →
      decCount dec xs.length ((xs.map enc).flatten ++ rest) = some (xs, rest)
  | [], rest, _ => by simp [decCount]
  | x :: xs, rest, he => by
    have hx := he x (List.mem_cons_self _ _) ((xs.map enc).flatten ++ rest)
    have hxs := decCount_enc enc dec xs rest fun a ha r => he a (List.mem_cons_of_mem _ ha) r
    simp only [List.length_cons, List.map_cons, List.flatten_cons, List.append_assoc, decCount,
      hx, hxs]

theorem decList_enc {α : Type} (enc : α → List Nat)
    (dec : List Nat → Option (α × List Nat)) (xs : List α) (rest : List Nat)
    (hlen : xs.length < 2 ^ 64)
    (he : ∀ a ∈ xs, ∀ r : List Nat, dec (enc a ++ r) = some (a, r)) :
    decList dec (encList enc xs ++ rest) = some (xs, rest) := by
  unfold encList decList
  rw [List.append_assoc, readU64_enc xs.length hlen]
  exact decCount_enc enc dec xs rest he

/-- Serialization of the `RigidBody` enum (bincode: `u32` variant index). -/
def encRigidBody : RigidBody → List Nat
  | .Dynamic => encU32N 0
  | .Fixed => encU32N 1
  | .KinematicPositionBased => encU32N 2
  | .KinematicVelocityBased => encU32N 3

/-- Deserialization of the `RigidBody` enum. -/
def decRigidBody (bs : List Nat) : Option (RigidBody × List Nat) :=
  match readU32 bs with
  | some (0, rest) => some (.Dynamic, rest)
  | some (1, rest) => some (.Fixed, rest)
  | some (2, rest) => some (.KinematicPositionBased, rest)
  | some (3, rest) => some (.KinematicVelocityBased, rest)
  | _ => none

theorem decRigidBody_enc (rb : RigidBody) (rest : List Nat) :
    decRigidBody (encRigidBody rb ++ rest) = some (rb, rest) := by
  cases rb <;> rfl

/-- Serialization of the `CoefficientCombineRule` enum. -/
def encCombineRule : CoefficientCombineRule → List Nat
  | .Average => encU32N 0
  | .Min => encU32N 1
  | .Multiply => encU32N 2
  | .Max => encU32N 3

/-- Deserialization of the `CoefficientCombineRule` enum. -/
def decCombineRule (bs : List Nat) : Option (CoefficientCombineRule × List Nat) :=
  match readU32 bs with
  | some (0, rest) => some (.Average, rest)
  | some (1, rest) => some (.Min, rest)
  | some (2, rest) => some (.Multiply, rest)
  | some (3, rest) => some (.Max, rest)
  | _ => none

theorem decCombineRule_enc (cr : CoefficientCombineRule) (rest : List Nat) :
    decCombineRule (encCombineRule cr ++ rest) = some (cr, rest) := by
  cases cr <;> rfl

/-- Serialization of a vector (three `f32` fields in order). -/
def encVect (v : Vect) : List Nat := encF32 v.x ++ encF32 v.y ++ encF32 v.z

/-- Deserialization of a vector. -/
def decVect (bs : List Nat) : Option (Vect × List Nat) :=
  match decF32 bs with
  | some (x, bs1) =>
    match decF32 bs1 with
    | some (y, bs2) =>
      match decF32 bs2 with
      | some (z, bs3) => some (⟨x, y, z⟩, bs3)
      | none => none
    | none => none
  | none => none

theorem decVect_enc (v : Vect) (rest : List Nat) :
    decVect (encVect v ++ rest) = some (v, rest) := by
  obtain ⟨x, y, z⟩ := v
  simp only [encVect, List.append_assoc]
  simp only [decVect, decF32_enc]

/-- Serialization of a quaternion (`x, y, z, w` in order). -/
def encQuat4 (q : Quat4) : List Nat :=
  encF32 q.qx ++ encF32 q.qy ++ encF32 q.qz ++ encF32 q.qw

/-- Deserialization of a quaternion. -/
def decQuat4 (bs : List Nat) : Option (Quat4 × List Nat) :=
  match decF32 bs with
  | some (x, bs1) =>
    match decF32 bs1 with
    | some (y, bs2) =>
      match decF32 bs2 with
      | some (z, bs3) =>
        match decF32 bs3 with
        | some (w, bs4) => some (⟨x, y, z, w⟩, bs4)
        | none => none
      | none => none
    | none => none
  | none => none

theorem decQuat4_enc (q : Quat4) (rest : List Nat) :
    decQuat4 (encQuat4 q ++ rest) = some (q, rest) := by
  obtain ⟨x, y, z, w⟩ := q
  simp only [encQuat4, List.append_assoc]
  simp only [decQuat4, decF32_enc]

/-- Serialization of an isometry (nalgebra declares the rotation field before
the translation, so serde emits the rotation first). -/
def encIso (i : Iso) : List Nat := encQuat4 i.rotation ++ encVect i.translation

/-- Deserialization of an isometry. -/
def decIso (bs : List Nat) : Option (Iso × List Nat) :=
  match decQuat4 bs with
  | some (r, bs1) =>
    match decVect bs1 with
    | some (t, bs2) => some (⟨t, r⟩, bs2)
    | none => none
  | none => none

theorem decIso_enc (i : Iso) (rest : List Nat) :
    decIso (encIso i ++ rest) = some (i, rest) := by
  obtain ⟨t, r⟩ := i
  simp only [encIso, List.append_assoc]
  simp only [decIso, decQuat4_enc, decVect_enc]

/-- Serialization of `MassProperties` (fields in declaration order). -/
def encMassProperties (m : MassProperties) : List Nat :=
  encVect m.local_center_of_mass ++ encF32 m.mass ++
    encQuat4 m.principal_inertia_local_frame ++ encVect m.principal_inertia

/-- Deserialization of `MassProperties`. -/
def decMassProperties (bs : List Nat) : Option (MassProperties × List Nat) :=
  match decVect bs with
  | some (c, bs1) =>
    match decF32 bs1 with
    | some (m, bs2) =>
      match decQuat4 bs2 with
      | some (f, bs3) =>
        match decVect bs3 with
        | some (p, bs4) => some (⟨c, m, f, p⟩, bs4)
        | none => none
      | none => none
    | none => none
  | none => none

theorem decMassProperties_enc (m : MassProperties) (rest : List Nat) :
    decMassProperties (encMassProperties m ++ rest) = some (m, rest) := by
  obtain ⟨c, ms, f, p⟩ := m
  simp only [encMassProperties, List.append_assoc]
  simp only [decMassProperties, decVect_enc, decF32_enc, decQuat4_enc]

/-- Serialization of `AdditionalMassProperties` (tagged union). -/
def encAdditionalMassProperties : AdditionalMassProperties → List Nat
  | .Mass m => encU32N 0 ++ encF32 m
  | .MassProperties mp => encU32N 1 ++ encMassProperties mp

/-- Deserialization of `AdditionalMassProperties`. -/
def decAdditionalMassProperties (bs : List Nat) :
    Option (AdditionalMassProperties × List Nat) :=
  match readU32 bs with
  | some (0, rest) =>
    match decF32 rest with
    | some (m, rest1) => some (.Mass m, rest1)
    | none => none
  | some (1, rest) =>
    match decMassProperties rest with
    | some (mp, rest1) => some (.MassProperties mp, rest1)
    | none => none
  | _ => none

theorem decAdditionalMassProperties_enc (a : AdditionalMassProperties) (rest : List Nat) :
    decAdditionalMassProperties (encAdditionalMassProperties a ++ rest) = some (a, rest) := by
  cases a with
  | Mass m =>
    have htag := readU32_enc 0 (by norm_num) (encF32 m ++ rest)
    simp only [encAdditionalMassProperties, List.append_assoc]
    simp only [decAdditionalMassProperties, htag, decF32_enc]
  | MassProperties mp =>
    have htag := readU32_enc 1 (by norm_num) (encMassProperties mp ++ rest)
    simp only [encAdditionalMassProperties, List.append_assoc]
    simp only [decAdditionalMassProperties, htag, decMassProperties_enc]

/-- Serialization of the modelled collider geometry (tagged union). -/
def encShape : Shape → List Nat
  | .Ball r => encU32N 0 ++ encF32 r
  | .Cuboid hx hy hz => encU32N 1 ++ encF32 hx ++ encF32 hy ++ encF32 hz

/-- Deserialization of the modelled collider geometry. -/
def decShape (bs : List Nat) : Option (Shape × List Nat) :=
  match readU32 bs with
  | some (0, rest) =>
    match decF32 rest with
    | some (r, rest1) => some (.Ball r, rest1)
    | none => none
  | some (1, rest) =>
    match decF32 rest with
    | some (hx, rest1) =>
      match decF32 rest1 with
      | some (hy, rest2) =>
        match decF32 rest2 with
        | some (hz, rest3) => some (.Cuboid hx hy hz, rest3)
        | none => none
      | none => none
    | none => none
  | _ => none

theorem decShape_enc (s : Shape) (rest : List Nat) :
    decShape (encShape s ++ rest) = some (s, rest) := by
  cases s with
  | Ball r =>
    have htag := readU32_enc 0 (by norm_num) (encF32 r ++ rest)
    simp only [encShape, List.append_assoc]
    simp only [decShape, htag, decF32_enc]
  | Cuboid hx hy hz =>
    have htag := readU32_enc 1 (by norm_num)
      (encF32 hx ++ (encF32 hy ++ (encF32 hz ++ rest)))
    simp only [encShape, List.append_assoc]
    simp only [decShape, htag, decF32_enc]

/-- Serialization of `Friction`. -/
def encFriction (f : Friction) : List Nat :=
  encF32 f.coefficient ++ encCombineRule f.combine_rule

/-- Deserialization of `Friction`. -/
def decFriction (bs : List Nat) : Option (Friction × List Nat) :=
  match decF32 bs with
  | some (c, bs1) =>
    match decCombineRule bs1 with
    | some (r, bs2) => some (⟨c, r⟩, bs2)
    | none => none
  | none => none

theorem decFriction_enc (f : Friction) (rest : List Nat) :
    decFriction (encFriction f ++ rest) = some (f, rest) := by
  obtain ⟨c, r⟩ := f
  simp only [encFriction, List.append_assoc]
  simp only [decFriction, decF32_enc, decCombineRule_enc]

/-- Serialization of `Restitution`. -/
def encRestitution (f : Restitution) : List Nat :=
  encF32 f.coefficient ++ encCombineRule f.combine_rule

/-- Deserialization of `Restitution`. -/
def decRestitution (bs : List Nat) : Option (Restitution × List Nat) :=
  match decF32 bs with
  | some (c, bs1) =>
    match decCombineRule bs1 with
    | some (r, bs2) => some (⟨c, r⟩, bs2)
    | none => none
  | none => none

theorem decRestitution_enc (f : Restitution) (rest : List Nat) :
    decRestitution (encRestitution f ++ rest) = some (f, rest) := by
  obtain ⟨c, r⟩ := f
  simp only [encRestitution, List.append_assoc]
  simp only [decRestitution, decF32_enc, decCombineRule_enc]

/-- Serialization of `ColliderMassProperties` (tagged union). -/
def encColliderMassProperties : ColliderMassProperties → List Nat
  | .Density d => encU32N 0 ++ encF32 d
  | .Mass m => encU32N 1 ++ encF32 m
  | .MassProperties mp => encU32N 2 ++ encMassProperties mp

/-- Deserialization of `ColliderMassProperties`. -/
def decColliderMassProperties (bs : List Nat) :
    Option (ColliderMassProperties × List Nat) :=
  match readU32 bs with
  | some (0, rest) =>
    match decF32 rest with
    | some (d, rest1) => some (.Density d, rest1)
    | none => none
  | some (1, rest) =>
    match decF32 rest with
    | some (m, rest1) => some (.Mass m, rest1)
    | none => none
  | some (2, rest) =>
    match decMassProperties rest with
    | some (mp, rest1) => some (.MassProperties mp, rest1)
    | none => none
  | _ => none

theorem decColliderMassProperties_enc (c : ColliderMassProperties) (rest : List Nat) :
    decColliderMassProperties (encColliderMassProperties c ++ rest) = some (c, rest) := by
  cases c with
  | Density d =>
    have htag := readU32_enc 0 (by norm_num) (encF32 d ++ rest)
    simp only [encColliderMassProperties, List.append_assoc]
    simp only [decColliderMassProperties, htag, decF32_enc]
  | Mass m =>
    have htag := readU32_enc 1 (by norm_num) (encF32 m ++ rest)
    simp only [encColliderMassProperties, List.append_assoc]
    simp only [decColliderMassProperties, htag, decF32_enc]
  | MassProperties mp =>
    have htag := readU32_enc 2 (by norm_num) (encMassProperties mp ++ rest)
    simp only [encColliderMassProperties, List.append_assoc]
    simp only [decColliderMassProperties, htag, decMassProperties_enc]

/-- Serialization of the `TimestepMode` enum. -/
def encTimestepMode : TimestepMode → List Nat
  | .Fixed dt substeps => encU32N 0 ++ encF32 dt ++ encU64 substeps
  | .Variable max_dt time_scale substeps =>
    encU32N 1 ++ encF32 max_dt ++ encF32 time_scale ++ encU64 substeps
  | .Interpolated dt time_scale substeps =>
    encU32N 2 ++ encF32 dt ++ encF32 time_scale ++ encU64 substeps

/-- Deserialization of the `TimestepMode` enum. -/
def decTimestepMode (bs : List Nat) : Option (TimestepMode × List Nat) :=
  match readU32 bs with
  | some (0, rest) =>
    match decF32 rest with
    | some (dt, rest1) =>
      match decU64 rest1 with
      | some (s, rest2) => some (.Fixed dt s, rest2)
      | none => none
    | none => none
  | some (1, rest) =>
    match decF32 rest with
    | some (m, rest1) =>
      match decF32 rest1 with
      | some (ts, rest2) =>
        match decU64 rest2 with
        | some (s, rest3) => some (.Variable m ts s, rest3)
        | none => none
      | none => none
    | none => none
  | some (2, rest) =>
    match decF32 rest with
    | some (dt, rest1) =>
      match decF32 rest1 with
      | some (ts, rest2) =>
        match decU64 rest2 with
        | some (s, rest3) => some (.Interpolated dt ts s, rest3)
        | none => none
      | none => none
    | none => none
  | _ => none

theorem decTimestepMode_enc (t : TimestepMode) (rest : List Nat) :
    decTimestepMode (encTimestepMode t ++ rest) = some (t, rest) := by
  cases t with
  | Fixed dt s =>
    have htag := readU32_enc 0 (by norm_num) (encF32 dt ++ (encU64 s ++ rest))
    simp only [encTimestepMode, List.append_assoc]
    simp only [decTimestepMode, htag, decF32_enc, decU64_enc]
  | Variable m ts s =>
    have htag := readU32_enc 1 (by norm_num)
      (encF32 m ++ (encF32 ts ++ (encU64 s ++ rest)))
    simp only [encTimestepMode, List.append_assoc]
    simp only [decTimestepMode, htag, decF32_enc, decU64_enc]
  | Interpolated dt ts s =>
    have htag := readU32_enc 2 (by norm_num)
      (encF32 dt ++ (encF32 ts ++ (encU64 s ++ rest)))
    simp only [encTimestepMode, List.append_assoc]
    simp only [decTimestepMode, htag, decF32_enc, decU64_enc]

/-- Serialization of the modelled config. -/
def encConfig (c : Config) : List Nat :=
  encVect c.gravity ++ encTimestepMode c.timestep_mode

/-- Deserialization of the modelled config. -/
def decConfig (bs : List Nat) : Option (Config × List Nat) :=
  match decVect bs with
  | some (g, bs1) =>
    match decTimestepMode bs1 with
    | some (t, bs2) => some (⟨g, t⟩, bs2)
    | none => none
  | none => none

theorem decConfig_enc (c : Config) (rest : List Nat) :
    decConfig (encConfig c ++ rest) = some (c, rest) := by
  obtain ⟨g, t⟩ := c
  simp only [encConfig, List.append_assoc]
  simp only [decConfig, decVect_enc, decTimestepMode_enc]

/-- Serialization of a `CreatedBody` descriptor (fields in order). -/
def encCreatedBody (b : CreatedBody) : List Nat :=
  encU64 b.id ++ encRigidBody b.body ++ encOption encIso b.transform ++
    encOption encAdditionalMassProperties b.additional_mass_properties

/-- Deserialization of a `CreatedBody` descriptor. -/
def decCreatedBody (bs : List Nat) : Option (CreatedBody × List Nat) :=
  match decU64 bs with
  | some (i, bs1) =>
    match decRigidBody bs1 with
    | some (rb, bs2) =>
      match decOption decIso bs2 with
      | some (tr, bs3) =>
        match decOption decAdditionalMassProperties bs3 with
        | some (am, bs4) => some (⟨i, rb, tr, am⟩, bs4)
        | none => none
      | none => none
    | none => none
  | none => none

theorem decCreatedBody_enc (b : CreatedBody) (rest : List Nat) :
    decCreatedBody (encCreatedBody b ++ rest) = some (b, rest) := by
  obtain ⟨i, rb, tr, am⟩ := b
  simp only [encCreatedBody, List.append_assoc]
  simp only [decCreatedBody, decU64_enc, decRigidBody_enc,
    decOption_enc encIso decIso tr _ fun a r _ => decIso_enc a r,
    decOption_enc encAdditionalMassProperties decAdditionalMassProperties am _
      fun a r _ => decAdditionalMassProperties_enc a r]

/-- Serialization of a `CreatedCollider` descriptor (fields in order). -/
def encCreatedCollider (c : CreatedCollider) : List Nat :=
  encU64 c.id ++ encShape c.shape ++ encOption encIso c.transform ++
    encOption encBool c.sensor ++
    encOption encColliderMassProperties c.mass_properties ++
    encOption encFriction c.friction ++ encOption encRestitution c.restitution

/-- Deserialization of a `CreatedCollider` descriptor. -/
def decCreatedCollider (bs : List Nat) : Option (CreatedCollider × List Nat) :=
  match decU64 bs with
  | some (i, bs1) =>
    match decShape bs1 with
    | some (sh, bs2) =>
      match decOption decIso bs2 with
      | some (tr, bs3) =>
        match decOption decBool bs3 with
        | some (se, bs4) =>
          match decOption decColliderMassProperties bs4 with
          | some (mp, bs5) =>
            match decOption decFriction bs5 with
            | some (fr, bs6) =>
              match decOption decRestitution bs6 with
              | some (re, bs7) => some (⟨i, sh, tr, se, mp, fr, re⟩, bs7)
              | none => none
            | none => none
          | none => none
        | none => none
      | none => none
    | none => none
  | none => none

theorem decCreatedCollider_enc (c : CreatedCollider) (rest : List Nat) :
    decCreatedCollider (encCreatedCollider c ++ rest) = some (c, rest) := by
  obtain ⟨i, sh, tr, se, mp, fr, re⟩ := c
  simp only [encCreatedCollider, List.append_assoc]
  simp only [decCreatedCollider, decU64_enc, decShape_enc,
    decOption_enc encIso decIso tr _ fun a r _ => decIso_enc a r,
    decOption_enc encBool decBool se _ fun a r _ => decBool_enc a r,
    decOption_enc encColliderMassProperties decColliderMassProperties mp _
      fun a r _ => decColliderMassProperties_enc a r,
    decOption_enc encFriction decFriction fr _ fun a r _ => decFriction_enc a r,
    decOption_enc encRestitution decRestitution re _ fun a r _ => decRestitution_enc a r]

/-- Serialization of a bevy `Transform` (translation, rotation, scale). -/
def encTransform (t : Transform) : List Nat :=
  encVect t.translation ++ encQuat4 t.rotation ++ encVect t.scale

/-- Deserialization of a bevy `Transform`. -/
def decTransform (bs : List Nat) : Option (Transform × List Nat) :=
  match decVect bs with
  | some (tr, bs1) =>
    match decQuat4 bs1 with
    | some (r, bs2) =>
      match decVect bs2 with
      | some (s, bs3) => some (⟨tr, r, s⟩, bs3)
      | none => none
    | none => none
  | none => none

theorem decTransform_enc (t : Transform) (rest : List Nat) :
    decTransform (encTransform t ++ rest) = some (t, rest) := by
  obtain ⟨tr, r, s⟩ := t
  simp only [encTransform, List.append_assoc]
  simp only [decTransform, decVect_enc, decQuat4_enc]

/-- Serialization of a `Velocity` (linvel, angvel). -/
def encVelocity (v : Velocity) : List Nat := encVect v.linvel ++ encVect v.angvel

/-- Deserialization of a `Velocity`. -/
def decVelocity (bs : List Nat) : Option (Velocity × List Nat) :=
  match decVect bs with
  | some (l, bs1) =>
    match decVect bs1 with
    | some (a, bs2) => some (⟨l, a⟩, bs2)
    | none => none
  | none => none

theorem decVelocity_enc (v : Velocity) (rest : List Nat) :
    decVelocity (encVelocity v ++ rest) = some (v, rest) := by
  obtain ⟨l, a⟩ := v
  simp only [encVelocity, List.append_assoc]
  simp only [decVelocity, decVect_enc]

/-- Serialization of one `(entity id, handle)` reply pair; the backend arena
handle is serialized as its 64-bit raw index. -/
def encIdHandle (p : U64 × Nat) : List Nat := encU64 p.1 ++ encU64N p.2

/-- Deserialization of one `(entity id, handle)` reply pair. -/
def decIdHandle (bs : List Nat) : Option ((U64 × Nat) × List Nat) :=
  match decU64 bs with
  | some (i, bs1) =>
    match readU64 bs1 with
    | some (h, bs2) => some ((i, h), bs2)
    | none => none
  | none => none

theorem decIdHandle_enc (p : U64 × Nat) (hp : p.2 < 2 ^ 64) (rest : List Nat) :
    decIdHandle (encIdHandle p ++ rest) = some (p, rest) := by
  obtain ⟨i, h⟩ := p
  simp only [encIdHandle, List.append_assoc]
  simp only [decIdHandle, decU64_enc, readU64_enc h hp rest]

/-- Serialization of one entry of the simulation-result map:
`(handle, (transform, velocity))`. -/
def encSimEntry (p : Nat × (Transform × Velocity)) : List Nat :=
  encU64N p.1 ++ encTransform p.2.1 ++ encVelocity p.2.2

/-- Deserialization of one entry of the simulation-result map. -/
def decSimEntry (bs : List Nat) : Option ((Nat × (Transform × Velocity)) × List Nat) :=
  match readU64 bs with
  | some (h, bs1) =>
    match decTransform bs1 with
    | some (t, bs2) =>
      match decVelocity bs2 with
      | some (v, bs3) => some ((h, (t, v)), bs3)
      | none => none
    | none => none
  | none => none

theorem decSimEntry_enc (p : Nat × (Transform × Velocity)) (hp : p.1 < 2 ^ 64)
    (rest : List Nat) : decSimEntry (encSimEntry p ++ rest) = some (p, rest) := by
  obtain ⟨h, t, v⟩ := p
  simp only [encSimEntry, List.append_assoc]
  simp only [decSimEntry, readU64_enc h hp, decTransform_enc, decVelocity_enc]

/-- Bincode serialization of the `Request` enum (`u32` variant index, then the
payload; variant order as declared in `src/shared/src/lib.rs`). -/
def encRequest : Request → List Nat
  | .UpdateConfig cfg => encU32N 0 ++ encConfig cfg
  | .CreateBodies bs => encU32N 1 ++ encList encCreatedBody bs
  | .CreateColliders cs => encU32N 2 ++ encList encCreatedCollider cs
  | .SimulateStep dt => encU32N 3 ++ encF32 dt

/-- Bincode deserialization of the `Request` enum. -/
def decRequest (bs : List Nat) : Option (Request × List Nat) :=
  match readU32 bs with
  | some (0, rest) =>
    match decConfig rest with
    | some (cfg, rest1) => some (.UpdateConfig cfg, rest1)
    | none => none
  | some (1, rest) =>
    match decList decCreatedBody rest with
    | some (l, rest1) => some (.CreateBodies l, rest1)
    | none => none
  | some (2, rest) =>
    match decList decCreatedCollider rest with
    | some (l, rest1) => some (.CreateColliders l, rest1)
    | none => none
  | some (3, rest) =>
    match decF32 rest with
    | some (dt, rest1) => some (.SimulateStep dt, rest1)
    | none => none
  | _ => none

/-- Well-formedness of a request for the fixed-width wire format: list lengths
fit in the bincode `u64` length field. -/
def Request.WF : Request → Prop
  | .CreateBodies bs => bs.length < 2 ^ 64
  | .CreateColliders cs => cs.length < 2 ^ 64
  | _ => True

instance : (r : Request) → Decidable (Request.WF r)
  | .UpdateConfig _ => Decidable.isTrue trivial
  | .CreateBodies bs => inferInstanceAs (Decidable (bs.length < 2 ^ 64))
  | .CreateColliders cs => inferInstanceAs (Decidable (cs.length < 2 ^ 64))
  | .SimulateStep _ => Decidable.isTrue trivial

theorem decRequest_enc (r : Request) (h : Request.WF r) (rest : List Nat) :
    decRequest (encRequest r ++ rest) = some (r, rest) := by
  cases r with
  | UpdateConfig cfg =>
    have htag := readU32_enc 0 (by norm_num) (encConfig cfg ++ rest)
    simp only [encRequest, List.append_assoc]
    simp only [decRequest, htag, decConfig_enc]
  | CreateBodies bs =>
    have htag := readU32_enc 1 (by norm_num) (encList encCreatedBody bs ++ rest)
    have hlist := decList_enc encCreatedBody decCreatedBody bs rest h
      fun a _ r => decCreatedBody_enc a r
    simp only [encRequest, List.append_assoc]
    simp only [decRequest, htag, hlist]
  | CreateColliders cs =>
    have htag := readU32_enc 2 (by norm_num) (encList encCreatedCollider cs ++ rest)
    have hlist := decList_enc encCreatedCollider decCreatedCollider cs rest h
      fun a _ r => decCreatedCollider_enc a r
    simp only [encRequest, List.append_assoc]
    simp only [decRequest, htag, hlist]
  | SimulateStep dt =>
    have htag := readU32_enc 3 (by norm_num) (encF32 dt ++ rest)
    simp only [encRequest, List.append_assoc]
    simp only [decRequest, htag, decF32_enc]

/-- Bincode serialization of the `Response` enum (`u32` variant index, then
the payload; variant order as declared in `src/shared/src/lib.rs`). -/
def encResponse : Response → List Nat
  | .ConfigUpdated => encU32N 0
  | .RigidBodyHandles hs => encU32N 1 ++ encList encIdHandle hs
  | .ColliderHandles hs => encU32N 2 ++ encList encIdHandle hs
  | .SimulationResult res => encU32N 3 ++ encList encSimEntry res

/-- Bincode deserialization of the `Response` enum. -/
def decResponse (bs : List Nat) : Option (Response × List Nat) :=
  match readU32 bs with
  | some (0, rest) => some (.ConfigUpdated, rest)
  | some (1, rest) =>
    match decList decIdHandle rest with
    | some (l, rest1) => some (.RigidBodyHandles l, rest1)
    | none => none
  | some (2, rest) =>
    match decList decIdHandle rest with
    | some (l, rest1) => some (.ColliderHandles l, rest1)
    | none => none
  | some (3, rest) =>
    match decList decSimEntry rest with
    | some (l, rest1) => some (.SimulationResult l, rest1)
    | none => none
  | _ => none

/-- Well-formedness of a response for the fixed-width wire format: list
lengths and raw handles fit their 64-bit fields. -/
def Response.WF : Response → Prop
  | .ConfigUpdated => True
  | .RigidBodyHandles hs => hs.length < 2 ^ 64 ∧ ∀ p ∈ hs, p.2 < 2 ^ 64
  | .ColliderHandles hs => hs.length < 2 ^ 64 ∧ ∀ p ∈ hs, p.2 < 2 ^ 64
  | .SimulationResult res => res.length < 2 ^ 64 ∧ ∀ p ∈ res, p.1 < 2 ^ 64

instance : (s : Response) → Decidable (Response.WF s)
  | .ConfigUpdated => Decidable.isTrue trivial
  | .RigidBodyHandles hs =>
    inferInstanceAs (Decidable (hs.length < 2 ^ 64 ∧ ∀ p ∈ hs, p.2 < 2 ^ 64))
  | .ColliderHandles hs =>
    inferInstanceAs (Decidable (hs.length < 2 ^ 64 ∧ ∀ p ∈ hs, p.2 < 2 ^ 64))
  | .SimulationResult res =>
    inferInstanceAs (Decidable (res.length < 2 ^ 64 ∧ ∀ p ∈ res, p.1 < 2 ^ 64))

theorem decResponse_enc (s : Response) (h : Response.WF s) (rest : List Nat) :
    decResponse (encResponse s ++ rest) = some (s, rest) := by
  cases s with
  | ConfigUpdated =>
    have htag := readU32_enc 0 (by norm_num) rest
    simp only [encResponse]
    simp only [decResponse, htag]
  | RigidBodyHandles hs =>
    have htag := readU32_enc 1 (by norm_num) (encList encIdHandle hs ++ rest)
    have hlist := decList_enc encIdHandle decIdHandle hs rest h.1
      fun a ha r => decIdHandle_enc a (h.2 a ha) r
    simp only [encResponse, List.append_assoc]
    simp only [decResponse, htag, hlist]
  | ColliderHandles hs =>
    have htag := readU32_enc 2 (by norm_num) (encList encIdHandle hs ++ rest)
    have hlist := decList_enc encIdHandle decIdHandle hs rest h.1
      fun a ha r => decIdHandle_enc a (h.2 a ha) r
    simp only [encResponse, List.append_assoc]
    simp only [decResponse, htag, hlist]
  | SimulationResult res =>
    have htag := readU32_enc 3 (by norm_num) (encList encSimEntry res ++ rest)
    have hlist := decList_enc encSimEntry decSimEntry res rest h.1
      fun a ha r => decSimEntry_enc a (h.2 a ha) r
    simp only [encResponse, List.append_assoc]
    simp only [decResponse, htag, hlist]

/-- Modelled from the spec: the zlib pass of the flate2 crate (an external
collaborator; the backend that decompresses is the batching-generation server
absent from `src/`). The spec requires only a symmetric byte-stream codec
applied to the whole serialized payload, modelled here as an executable
run-length compressor whose inversion is proved below. Helper: compress the
stream given the current run byte and its count (1 ≤ count ≤ 255). -/
def rleCompressGo : Nat → Nat → List Nat → List Nat
  | cur, cnt, [] => [cnt, cur]
  | cur, cnt, b :: bs =>
    if b = cur ∧ cnt < 255 then rleCompressGo cur (cnt + 1) bs
    else cnt :: cur :: rleCompressGo b 1 bs

/-- The modelled compression pass: byte runs become `(count, byte)` pairs. -/
def rleCompress : List Nat → List Nat
  | [] => []
  | b :: bs => rleCompressGo b 1 bs

/-- The modelled decompression pass. -/
def rleDecompress : List Nat → List Nat
  | cnt :: b :: rest => List.replicate cnt b ++ rleDecompress rest
  | _ => []

theorem rleDecompress_go (bs : List Nat) :
    ∀ cur cnt, rleDecompress (rleCompressGo cur cnt bs) =
      List.replicate cnt cur ++ bs := by
  induction bs with
  | nil => intro cur cnt; simp [rleCompressGo, rleDecompress]
  | cons b bs ih =>
    intro cur cnt
    by_cases h : b = cur ∧ cnt < 255
    · rw [rleCompressGo, if_pos h, ih]
      simp [List.replicate_succ', h.1, List.append_assoc]
    · rw [rleCompressGo, if_neg h]
      show rleDecompress (cnt :: cur :: rleCompressGo b 1 bs) = _
      rw [rleDecompress, ih]
      simp

/-- The modelled compression round-trips on every byte stream. -/
theorem rleDecompress_rleCompress (bs : List Nat) :
    rleDecompress (rleCompress bs) = bs := by
  cases bs with
  | nil => rfl
  | cons b bs => rw [rleCompress, rleDecompress_go]; simp

/-- The client transmit pipeline of `PhysicsClient::send_request`
(`src/client/src/client.rs` lines 36-50): bincode-serialize the request, then
compress the whole serialized payload, then frame it as one binary message. -/
def clientTransmit (r : Request) : List Nat := rleCompress (encRequest r)

/-- Modelled from the spec: the receiving backend of the compressed transport
(absent from `src/`) recovers the request by decompressing the framed payload
and then bincode-decoding it. -/
def backendReceive (bs : List Nat) : Option Request :=
  match decRequest (rleDecompress bs) with
  | some (r, _) => some r
  | none => none

/-- The backend reply pipeline: bincode-serialize the response, compress, send
(mirroring `serialize` + the compression pass). -/
def backendTransmit (s : Response) : List Nat := rleCompress (encResponse s)

/-- The client receive pipeline of `PhysicsClient::send_request` (lines
52-60): read the binary message, decompress the whole payload, then
bincode-decode the response. -/
def clientReceive (bs : List Nat) : Option Response :=
  match decResponse (rleDecompress bs) with
  | some (s, _) => some s
  | none => none

/-- C6. The compression pass is symmetric around the serialized payload:
decompress-then-decode recovers exactly the request delivered by
encode-then-compress, and likewise for responses in the reverse direction. -/
theorem compression_pipeline_symmetric (r : Request) (hr : Request.WF r)
    (s : Response) (hs : Response.WF s) :
    backendReceive (clientTransmit r) = some r ∧
      clientReceive (backendTransmit s) = some s := by
  constructor
  · unfold backendReceive clientTransmit
    rw [rleDecompress_rleCompress]
    have h := decRequest_enc r hr []
    rw [List.append_nil] at h
    rw [h]
  · unfold clientReceive backendTransmit
    rw [rleDecompress_rleCompress]
    have h := decResponse_enc s hs []
    rw [List.append_nil] at h
    rw [h]

/-- A representative request for the C6 witness: one body descriptor with a
pose and a mass override. -/
def sampleRequest : Request :=
  Request.CreateBodies
    [⟨⟨5, by norm_num⟩, RigidBody.Dynamic, some Iso.identity,
      some (AdditionalMassProperties.Mass f32One)⟩]

/-- A representative response for the C6 witness: a simulation result with
one entry. -/
def sampleResponse : Response :=
  Response.SimulationResult
    [(0, (⟨Vect.zero, Quat4.identity, Vect.zero⟩, ⟨Vect.zero, Vect.zero⟩))]

/-- Concrete instantiation of C6 on `sampleRequest` and `sampleResponse`. -/
theorem compression_pipeline_symmetric_witness :
    (Request.WF sampleRequest ∧ Response.WF sampleResponse) ∧
      backendReceive (clientTransmit sampleRequest) = some sampleRequest ∧
      clientReceive (backendTransmit sampleResponse) = some sampleResponse :=
  ⟨⟨by decide, by decide⟩,
    compression_pipeline_symmetric sampleRequest (by decide) sampleResponse (by decide)⟩

end Bridge
